import Mathlib

/-!
Verification of the front-end generation-pipeline orchestrator
(`FlowWidget` / `ChatWidgetSidebar`), the generation service facade
(`services/chat.js`) and the cost table (`lib/pricing.js`).

Every definition below is a shallow embedding of the corresponding
JavaScript source: JS objects used as string-keyed maps become
association lists with last-write-wins `set`, JS `Array.prototype.sort`
(stable per the ECMAScript specification) becomes a stable insertion
sort parameterised by the source comparator, async call outcomes become
explicit `Except`/`Option` parameters, and React state updates become
explicit state-passing functions.
-/

namespace FlowSpec

/-! ## Segment-identifier normalization (FlowWidget.jsx `flowData`)

Three distinct normalizations appear in the reconciler:
  * image records  : replace of regex `^seg-(\d+)(?:-\d+)?$` on `img.uuid`
    by the captured digits
  * video records  : replace of regex `^seg-` on `video.uuid` by the empty
    string
  * segment records: `seg.segmentId || seg.id`
-/

/-- Consume the literal characters `p` from the front of `cs`,
returning the remainder when `p` is a prefix of `cs`. -/
def consumeLit (p : List Char) (cs : List Char) : Option (List Char) :=
  match p, cs with
  | [], rest => some rest
  | _ :: _, [] => none
  | a :: ps, c :: rest => if c = a then consumeLit ps rest else none

/-- Matcher for the regular expression `^seg-(\d+)(?:-\d+)?$`:
returns the capture group (the digits after `seg-`) when the whole
string matches, `none` otherwise. -/
def matchSegNum (cs : List Char) : Option (List Char) :=
  match consumeLit ['s', 'e', 'g', '-'] cs with
  | none => none
  | some rest =>
    let ds := rest.takeWhile Char.isDigit
    let tl := rest.dropWhile Char.isDigit
    if ds.isEmpty then none
    else
      match tl with
      | [] => some ds
      | '-' :: more => if !more.isEmpty && more.all Char.isDigit then some ds else none
      | _ => none

/-- Image-record path (FlowWidget.jsx line 151): replace of regex
`^seg-(\d+)(?:-\d+)?$` on the uuid — when the regex matches the whole
uuid the string is replaced by the captured digits, otherwise the uuid
is left unchanged. -/
def imageSegmentKey (uuid : String) : String :=
  match matchSegNum uuid.toList with
  | some ds => String.mk ds
  | none => uuid

/-- Strip a leading `seg-`, leaving everything after it (including any
trailing `-<timestamp>` suffix). -/
def stripLeadingSeg (cs : List Char) : List Char :=
  match consumeLit ['s', 'e', 'g', '-'] cs with
  | some rest => rest
  | none => cs

/-- Video-record path (FlowWidget.jsx line 202): replace of regex
`^seg-` on the uuid by the empty string. -/
def videoSegmentKey (uuid : String) : String :=
  String.mk (stripLeadingSeg uuid.toList)

/-- Raw segment record as delivered by the segmentation fetch.
Absent string fields are modelled as `""` (JS `undefined` is falsy,
as is the empty string, and the source only tests truthiness). -/
structure RawSegment where
  id : String
  segmentId : String
  visual : String
  narration : String
  animation : String
deriving Repr, DecidableEq

/-- Segment-extraction path (FlowWidget.jsx line 135):
`seg.segmentId || seg.id`. -/
def segmentKeyOf (seg : RawSegment) : String :=
  if seg.segmentId ≠ "" then seg.segmentId else seg.id

/-! ## JS string-keyed objects

A JS object used as a map: assignment `obj[k] = v` updates the value in
place when the key exists and appends otherwise; `obj[k]` reads the
value of the (unique) entry for `k`. -/

/-- JS object property assignment `m[k] = v`. -/
def jsSet {α : Type} (m : List (String × α)) (k : String) (v : α) : List (String × α) :=
  match m with
  | [] => [(k, v)]
  | (k', v') :: rest => if k' = k then (k', v) :: rest else (k', v') :: jsSet rest k v

/-- JS object property read `m[k]` (`none` models `undefined`). -/
def jsGet {α : Type} (m : List (String × α)) (k : String) : Option α :=
  match m with
  | [] => none
  | (k', v') :: rest => if k' = k then some v' else jsGet rest k

/-- JS truthiness of a string-valued property read: `undefined` and the
empty string are falsy. -/
def truthyStr (o : Option String) : Bool :=
  match o with
  | some s => s ≠ ""
  | none => false

/-- Value of the last entry for key `k` in an association list (the
entry that wins when the list is written left to right into a JS map). -/
def lastAssoc {α : Type} : List (String × α) → String → Option α
  | [], _ => none
  | (k', v') :: rest, k =>
    match lastAssoc rest k with
    | some u => some u
    | none => if k' = k then some v' else none

/-! ## Canonical video map and preview-video overlay (FlowWidget.jsx 196-221) -/

/-- One file of a raw video record. -/
structure VideoFile where
  s3Key : String
deriving Repr, DecidableEq

/-- Raw video record as delivered by the videos fetch.  Absent string
fields are modelled as `""` (falsy, like JS `undefined`). -/
structure RawVideo where
  id : String
  success : Bool
  uuid : String
  videoFiles : List VideoFile
  artStyle : String
  imageS3Key : String
deriving Repr, DecidableEq

/-- CloudFront URL for a storage key. -/
def cdnUrl (key : String) : String :=
  "https://ds0fghatf06yb.cloudfront.net/" ++ key

/-- The key/url pair a raw video record contributes to the videos map,
`none` when the record is skipped (guard at FlowWidget.jsx 198-201:
`video && video.success && video.uuid && Array.isArray(video.videoFiles)
&& video.videoFiles.length > 0 && video.videoFiles[0].s3Key`). -/
def videoEntry (v : RawVideo) : Option (String × String) :=
  match v.videoFiles with
  | [] => none
  | f :: _ =>
    if v.success && v.uuid ≠ "" && f.s3Key ≠ "" then
      some (videoSegmentKey v.uuid, cdnUrl f.s3Key)
    else none

/-- The canonical (server-fetched) videos map: the `forEach` over
`allProjectData.videos` writing `videos[segmentId] = url`. -/
def buildVideosMap (raws : List RawVideo) : List (String × String) :=
  raws.foldl
    (fun m v =>
      match videoEntry v with
      | some (k, u) => jsSet m k u
      | none => m)
    []

/-- The merged display video map: the canonical map, then
`temporaryVideos.forEach((videoUrl, key) => videos[key] = videoUrl)`
(FlowWidget.jsx 217-219). -/
def mergedVideosMap (raws : List RawVideo) (temporaryVideos : List (String × String)) :
    List (String × String) :=
  temporaryVideos.foldl (fun m kv => jsSet m kv.1 kv.2) (buildVideosMap raws)

/-! ## Per-segment image lists and primary-first sort (FlowWidget.jsx 147-192) -/

/-- Raw image record as delivered by the images fetch.  `isPrimary` is
`Option Bool` because the source tests `typeof img.isPrimary ===
'boolean'`; absent string fields are `""`. -/
structure RawImage where
  id : String
  success : Bool
  s3Key : String
  uuid : String
  visualPrompt : String
  artStyle : String
  isPrimary : Option Bool
deriving Repr, DecidableEq

/-- Element pushed onto `allImagesBySegment[segmentId]`. -/
structure SegImage where
  id : String
  url : String
  visualPrompt : String
  artStyle : String
  s3Key : String
  uuid : String
  isPrimary : Bool
deriving Repr, DecidableEq

/-- Guard at FlowWidget.jsx 149: `img && img.success && img.s3Key && img.uuid`. -/
def imageValid (img : RawImage) : Bool :=
  img.success && img.s3Key ≠ "" && img.uuid ≠ ""

/-- The object pushed at FlowWidget.jsx 159-167; the primary flag prefers
the backend boolean and falls back to the uuid heuristic
`!img.uuid.includes('-')`. -/
def mkSegImage (img : RawImage) : SegImage :=
  { id := img.id
    url := cdnUrl img.s3Key
    visualPrompt := img.visualPrompt
    artStyle := img.artStyle
    s3Key := img.s3Key
    uuid := img.uuid
    isPrimary :=
      match img.isPrimary with
      | some b => b
      | none => !(img.uuid.toList.contains '-') }

/-- The arrival-ordered image list accumulated for one segment key:
the records that pass the guard and whose normalized uuid equals the
key, in fetch order (the `push` into `allImagesBySegment[segmentId]`). -/
def imagesForSegment (raws : List RawImage) (key : String) : List SegImage :=
  (raws.filter (fun img => imageValid img && imageSegmentKey img.uuid == key)).map mkSegImage

/-- The comparator at FlowWidget.jsx 176-180. -/
def primaryCmp (a b : SegImage) : Int :=
  if a.isPrimary && !b.isPrimary then -1
  else if !a.isPrimary && b.isPrimary then 1
  else 0

/-- Insert `x` into an already-sorted list, after every element `y` with
`cmp y x ≤ 0` — the stable insertion step of `Array.prototype.sort`
(stable per the ECMAScript specification). -/
def sortInsert (cmp : SegImage → SegImage → Int) (x : SegImage) :
    List SegImage → List SegImage
  | [] => [x]
  | y :: ys => if cmp y x ≤ 0 then y :: sortInsert cmp x ys else x :: y :: ys

/-- Stable sort with comparator `cmp`: the embedding of
`segmentImages.sort(cmp)`. -/
def jsSortStable (cmp : SegImage → SegImage → Int) (l : List SegImage) : List SegImage :=
  l.foldl (fun acc x => sortInsert cmp x acc) []

/-- `segmentImages` after the primary-first sort. -/
def sortedImagesForSegment (raws : List RawImage) (key : String) : List SegImage :=
  jsSortStable primaryCmp (imagesForSegment raws key)

/-- `segmentImages[0]` — the per-segment primary image surfaced in
`images[segmentId]` / `imageDetails[segmentId]`. -/
def primaryImageFor (raws : List RawImage) (key : String) : Option SegImage :=
  (sortedImagesForSegment raws key).head?

/-! ## JS string utilities

`String.prototype.trim` and the whitespace class `\s` of JS regular
expressions (ASCII whitespace, NBSP, BOM and the Unicode space
separators). -/

/-- The JS regex `\s` character class. -/
def isJsSpace (c : Char) : Bool :=
  c = ' ' || c = '\t' || c = '\n' || c = '\r' ||
  c.toNat = 0x0B || c.toNat = 0x0C || c.toNat = 0xA0 || c.toNat = 0x1680 ||
  (0x2000 ≤ c.toNat && c.toNat ≤ 0x200A) || c.toNat = 0x2028 || c.toNat = 0x2029 ||
  c.toNat = 0x202F || c.toNat = 0x205F || c.toNat = 0x3000 || c.toNat = 0xFEFF

/-- Worker for the global regex replace of runs matching `p` by a single
space: `inRun` records whether the previous character was part of a
run. -/
def collapseRunsAux (p : Char → Bool) (inRun : Bool) : List Char → List Char
  | [] => []
  | c :: rest =>
    if p c then
      if inRun then collapseRunsAux p true rest
      else ' ' :: collapseRunsAux p true rest
    else c :: collapseRunsAux p false rest

/-- Global regex replace of every maximal run of characters matching `p`
by a single space (the shape of both `.replace` of regex `\n+` and
`.replace` of regex `\s+` in chat.js). -/
def collapseRuns (p : Char → Bool) (l : List Char) : List Char :=
  collapseRunsAux p false l

/-- Remove trailing JS whitespace. -/
def dropTrailingWs : List Char → List Char
  | [] => []
  | c :: rest =>
    match dropTrailingWs rest with
    | [] => if isJsSpace c then [] else [c]
    | d :: ds => c :: d :: ds

/-- `String.prototype.trim` on a character list. -/
def jsTrimChars (l : List Char) : List Char :=
  dropTrailingWs (l.dropWhile isJsSpace)

/-- `String.prototype.trim`. -/
def jsTrimStr (s : String) : String :=
  String.mk (jsTrimChars s.toList)

/-- JS `a || b` on strings (empty is falsy). -/
def jsOrStr (a b : String) : String :=
  if a ≠ "" then a else b

/-! ## Per-entity generation guards (FlowWidget.jsx handlers)

The four `Set`-valued state cells `regeneratingImages`,
`regeneratingVideos`, `creatingImages`, `creatingVideos` and the guard /
add / finally-delete pattern of the handlers.  A JS `Set` is modelled as
a duplicate-free list: `add` inserts when absent, `delete` removes the
key. -/

/-- The `FlowWidget` component state the per-entity handlers touch. -/
structure FWState where
  regeneratingImages : List String
  regeneratingVideos : List String
  creatingImages : List String
  creatingVideos : List String
  error : Option String
deriving Repr, DecidableEq

/-- `new Set(prev).add(k)`. -/
def setAdd (s : List String) (k : String) : List String :=
  if s.contains k then s else s ++ [k]

/-- `newSet.delete(k)` on a copy of the set. -/
def setDelete (s : List String) (k : String) : List String :=
  s.filter (fun x => x ≠ k)

/-- Start of `handleRegenerateImage` (FlowWidget.jsx 226-247): guard
`!isAuthenticated || regeneratingImages.has(imageId)`, then the
project-id check, then the key is added and the generation body runs.
The returned `Bool` is whether the generation task was launched. -/
def startRegenerateImage (st : FWState) (isAuthenticated : Bool)
    (projectId : Option String) (imageId : String) : FWState × Bool :=
  if !isAuthenticated || st.regeneratingImages.contains imageId then (st, false)
  else
    match projectId with
    | none => ({ st with error := some "No project selected. Please select a project first." },
        false)
    | some _ => ({ st with regeneratingImages := setAdd st.regeneratingImages imageId }, true)

/-- The `finally` block of `handleRegenerateImage`: the key is removed
once the task settles. -/
def settleRegenerateImage (st : FWState) (imageId : String) : FWState :=
  { st with regeneratingImages := setDelete st.regeneratingImages imageId }

/-- Start of `handleRegenerateVideo` (FlowWidget.jsx 296-316): guard
`!isAuthenticated || regeneratingVideos.has(videoId)`. -/
def startRegenerateVideo (st : FWState) (isAuthenticated : Bool)
    (projectId : Option String) (videoId : String) : FWState × Bool :=
  if !isAuthenticated || st.regeneratingVideos.contains videoId then (st, false)
  else
    match projectId with
    | none => ({ st with error := some "No project selected. Please select a project first." },
        false)
    | some _ => ({ st with regeneratingVideos := setAdd st.regeneratingVideos videoId }, true)

/-- The `finally` block of `handleRegenerateVideo`. -/
def settleRegenerateVideo (st : FWState) (videoId : String) : FWState :=
  { st with regeneratingVideos := setDelete st.regeneratingVideos videoId }

/-- Start of `handleCreateNewImage` (FlowWidget.jsx 355-376): the guard
is only `!isAuthenticated` — the source does NOT test
`creatingImages.has(segmentId)` before proceeding. -/
def startCreateNewImage (st : FWState) (isAuthenticated : Bool)
    (projectId : Option String) (segmentId : String) : FWState × Bool :=
  if !isAuthenticated then (st, false)
  else
    match projectId with
    | none => ({ st with error := some "No project selected. Please select a project first." },
        false)
    | some _ => ({ st with creatingImages := setAdd st.creatingImages segmentId }, true)

/-- The `finally` block of `handleCreateNewImage`. -/
def settleCreateNewImage (st : FWState) (segmentId : String) : FWState :=
  { st with creatingImages := setDelete st.creatingImages segmentId }

/-- Start of `handleCreateNewVideo` (FlowWidget.jsx 461-482): guard
`!isAuthenticated || creatingVideos.has(imageId)`. -/
def startCreateNewVideo (st : FWState) (isAuthenticated : Bool)
    (projectId : Option String) (imageId : String) : FWState × Bool :=
  if !isAuthenticated || st.creatingVideos.contains imageId then (st, false)
  else
    match projectId with
    | none => ({ st with error := some "No project selected. Please select a project first." },
        false)
    | some _ => ({ st with creatingVideos := setAdd st.creatingVideos imageId }, true)

/-- The `finally` block of `handleCreateNewVideo`. -/
def settleCreateNewVideo (st : FWState) (imageId : String) : FWState :=
  { st with creatingVideos := setDelete st.creatingVideos imageId }

/-! ## Project-data reconciliation fetch (FlowWidget.jsx 54-122) -/

/-- One segmentation record: carries the segment list of one script. -/
structure Segmentation where
  segments : List RawSegment
deriving Repr, DecidableEq

/-- A `{ success, data }` response from the project data source. -/
structure FetchResp (α : Type) where
  success : Bool
  data : List α
deriving Repr, DecidableEq

/-- The reconciled view installed in `allProjectData`. -/
structure AllProjectData where
  segments : List RawSegment
  images : List RawImage
  videos : List RawVideo
deriving Repr, DecidableEq

/-- The component state `refreshProjectData` touches. -/
structure ProjState where
  allProjectData : AllProjectData
  error : Option String
  loading : Bool
deriving Repr, DecidableEq

/-- `refreshProjectData` (FlowWidget.jsx 54-122).  The three parallel
fetches are passed as one `Except`: `Except.error` models `Promise.all`
rejecting because at least one request threw; `Except.ok` carries the
three responses (each of which may still have `success = false`).  On a
rejection the `catch` block sets the error message and `allProjectData`
is not written; on resolution the view is installed, treating a
segmentations response that is unsuccessful or empty as an empty
segment list. -/
def refreshProjectData (st : ProjState) (isAuthenticated : Bool)
    (projectId : Option String)
    (fetches : Except String (FetchResp Segmentation × FetchResp RawImage × FetchResp RawVideo)) :
    ProjState :=
  if !isAuthenticated then st
  else
    match projectId with
    | none => { st with error := some "No project selected. Please select a project first." }
    | some _ =>
      match fetches with
      | .error _ => { st with error := some "Failed to fetch project data", loading := false }
      | .ok (segmentationsData, imagesData, videosData) =>
        let segments :=
          if segmentationsData.success then
            match segmentationsData.data with
            | firstSegmentation :: _ => firstSegmentation.segments
            | [] => []
          else []
        { st with
            allProjectData :=
              { segments := segments
                images := imagesData.data
                videos := videosData.data }
            loading := false }

/-! ## The 6-step workflow state machine (ChatWidgetSidebar) -/

/-- A step status value: the state machine has exactly these three
states (there is no distinct `error` state). -/
inductive StepState where
  | pending
  | loading
  | done
deriving Repr, DecidableEq

/-- The `stepStatus` object `{0:...,1:...,2:...,3:...,4:...,5:...}`. -/
structure StepStatus where
  s0 : StepState
  s1 : StepState
  s2 : StepState
  s3 : StepState
  s4 : StepState
  s5 : StepState
deriving Repr, DecidableEq

/-- Read `stepStatus[i]`. -/
def StepStatus.get (ss : StepStatus) : Nat → StepState
  | 0 => ss.s0
  | 1 => ss.s1
  | 2 => ss.s2
  | 3 => ss.s3
  | 4 => ss.s4
  | 5 => ss.s5
  | _ => .pending

/-- The spread update `{...prev, [i]: v}` of `updateStepStatus`
(only ever called with `i` in `0..5`). -/
def StepStatus.set (ss : StepStatus) : Nat → StepState → StepStatus
  | 0, v => { ss with s0 := v }
  | 1, v => { ss with s1 := v }
  | 2, v => { ss with s2 := v }
  | 3, v => { ss with s3 := v }
  | 4, v => { ss with s4 := v }
  | 5, v => { ss with s5 := v }
  | _, _ => ss

/-- A concept produced by the concept writer. -/
structure Concept where
  title : String
deriving Repr, DecidableEq

/-- One segment of a selected script.  The extra storage-key and url
fields mirror the alternative spellings the derived-status effect and
the video-generation variants probe (`seg.s3Key || seg.image_s3_key ||
seg.imageS3Key`, `seg.videoUrl || seg.video_url`, `segment.segmentId`,
`segment.uuid`); absent fields are `""`. -/
structure ScriptSegment where
  id : String
  visual : String
  narration : String
  animation : String
  segmentId : String
  uuid : String
  s3Key : String
  image_s3_key : String
  imageS3Key : String
  videoUrl : String
  video_url : String
deriving Repr, DecidableEq

/-- A selected script. -/
structure Script where
  segments : List ScriptSegment
  artStyle : String
  concept : String
deriving Repr, DecidableEq

/-- The ChatWidgetSidebar workflow state the step functions touch. -/
structure WState where
  currentStep : Nat
  stepStatus : StepStatus
  concepts : Option (List Concept)
  selectedConcept : Option Concept
  scripts : Option (Script × Script)
  selectedScript : Option Script
  generatedImages : List (String × String)
  generatedVideos : List (String × String)
  loading : Bool
  error : Option String
deriving Repr, DecidableEq

/-- `runConceptWriter` (ChatWidgetSidebar 1484-1534).  The two external
calls are passed as `Except` outcomes (`.error` = the awaited promise
rejected, carrying `error.message`).  Returns the new state and whether
any external call was attempted. -/
def runConceptWriter (st : WState) (prompt : String) (webInfoRes : Except String String)
    (conceptsRes : Except String (List Concept)) : WState × Bool :=
  if jsTrimStr prompt = "" then
    ({ st with error := some "Please enter a prompt first" }, false)
  else
    let st₁ := { st with loading := true, error := none,
                         stepStatus := st.stepStatus.set 0 .loading }
    match webInfoRes with
    | .error e =>
      ({ st₁ with error := some (jsOrStr e "Failed to generate concepts. Please try again.")
                  stepStatus := st₁.stepStatus.set 0 .pending
                  loading := false }, true)
    | .ok _ =>
      match conceptsRes with
      | .error e =>
        ({ st₁ with error := some (jsOrStr e "Failed to generate concepts. Please try again.")
                    stepStatus := st₁.stepStatus.set 0 .pending
                    loading := false }, true)
      | .ok cs =>
        ({ st₁ with concepts := some cs
                    stepStatus := st₁.stepStatus.set 0 .done
                    currentStep := 1
                    loading := false }, true)

/-- `runScriptGeneration` (ChatWidgetSidebar 1536-1575): two concurrent
segmentation requests via `Promise.all`; either rejection fails the
pair. -/
def runScriptGeneration (st : WState) (res1 res2 : Except String Script) : WState :=
  match st.selectedConcept with
  | none => { st with error := some "Please select a concept first" }
  | some _ =>
    let st₁ := { st with loading := true, error := none,
                         stepStatus := st.stepStatus.set 2 .loading }
    match res1, res2 with
    | .ok r1, .ok r2 =>
      { st₁ with scripts := some (r1, r2)
                 stepStatus := st₁.stepStatus.set 2 .done
                 currentStep := 3
                 loading := false }
    | .error e, _ =>
      { st₁ with error := some (jsOrStr e "Failed to generate scripts. Please try again.")
                 stepStatus := st₁.stepStatus.set 2 .pending
                 loading := false }
    | .ok _, .error e =>
      { st₁ with error := some (jsOrStr e "Failed to generate scripts. Please try again.")
                 stepStatus := st₁.stepStatus.set 2 .pending
                 loading := false }

/-- The derived-status `useEffect` (ChatWidgetSidebar 1228-1295): when a
project is selected, every one of the six statuses is recomputed from
the current data. -/
def deriveStepStatus (selectedProject : Option String) (st : WState) : StepStatus :=
  match selectedProject with
  | none => st.stepStatus
  | some _ =>
    let s0 := match st.concepts with
      | some cs => if cs.length > 0 then StepState.done else .pending
      | none => .pending
    let s1 := if st.selectedConcept.isSome then StepState.done else .pending
    let s23 := match st.selectedScript with
      | some sc => if sc.segments.length > 0 then StepState.done else .pending
      | none => .pending
    let hasImages := st.generatedImages.length > 0 ||
      (match st.selectedScript with
       | some sc => sc.segments.any (fun seg =>
           seg.s3Key ≠ "" || seg.image_s3_key ≠ "" || seg.imageS3Key ≠ "")
       | none => false)
    let s4 := if hasImages then StepState.done else .pending
    let hasVideos := st.generatedVideos.length > 0 ||
      (match st.selectedScript with
       | some sc => sc.segments.any (fun seg => seg.videoUrl ≠ "" || seg.video_url ≠ "")
       | none => false)
    let s5 := if hasVideos then StepState.done else .pending
    ⟨s0, s1, s23, s23, s4, s5⟩

/-- The effect applied to the state (`setStepStatus(newStepStatus)`). -/
def runStepStatusEffect (selectedProject : Option String) (st : WState) : WState :=
  { st with stepStatus := deriveStepStatus selectedProject st }

/-- `handleConceptSelect` (ChatWidgetSidebar 1845-1849). -/
def handleConceptSelect (st : WState) (c : Concept) : WState :=
  { st with selectedConcept := some c
            stepStatus := st.stepStatus.set 1 .done
            currentStep := 2 }

/-- `handleScriptSelect` (ChatWidgetSidebar 1851-1855). -/
def handleScriptSelect (st : WState) (script : Script) : WState :=
  { st with selectedScript := some script
            stepStatus := st.stepStatus.set 3 .done
            currentStep := 4 }

/-! ## Batch image / video generation (ChatWidgetSidebar 1577-1843) -/

/-- Outcome of one per-segment generation call: the response carried an
`s3_key`, the response lacked it, or the call threw. -/
inductive GenResult where
  | ok (s3Key : String)
  | noKey
  | err (msg : String)
deriving Repr, DecidableEq

/-- `runImageGeneration`: filters segments to those with a non-empty
trimmed visual prompt, launches one call per eligible segment, awaits
them all with `Promise.allSettled`, records every success in the images
map keyed by segment id, then marks step 4 done and advances to step 5.
`outcome` gives each segment id its call result and `download` models
`s3Api.downloadImage`; the returned list is the settled per-call result
array. -/
def runImageGeneration (st : WState) (outcome : String → GenResult)
    (download : String → String) : WState × List GenResult :=
  match st.selectedScript with
  | none => ({ st with error := some "Please select a script first" }, [])
  | some script =>
    let st₁ := { st with loading := true, error := none,
                         stepStatus := st.stepStatus.set 4 .loading }
    let segmentsToGenerate := script.segments.filter (fun s => jsTrimStr s.visual ≠ "")
    if segmentsToGenerate.isEmpty then
      ({ st₁ with error := some "No visual prompts found in script segments."
                  loading := false
                  stepStatus := st₁.stepStatus.set 4 .pending }, [])
    else
      let results := segmentsToGenerate.map (fun s => outcome s.id)
      let imagesMap := segmentsToGenerate.foldl
        (fun m s =>
          match outcome s.id with
          | .ok k => jsSet m s.id (download k)
          | _ => m) []
      let segs := script.segments.map (fun s =>
        if jsTrimStr s.visual ≠ "" then
          match outcome s.id with
          | .ok k => { s with s3Key := k }
          | _ => s
        else s)
      ({ st₁ with generatedImages := imagesMap
                  selectedScript := some { script with segments := segs }
                  stepStatus := st₁.stepStatus.set 4 .done
                  currentStep := 5
                  loading := false }, results)

/-- The id spellings tried against `generatedImages`
(ChatWidgetSidebar 1722, 1730-1735). -/
def segmentIdVariants (s : ScriptSegment) : List String :=
  [s.id, "seg-" ++ s.id, s.segmentId, s.uuid]

/-- `runVideoGeneration`: requires a non-empty generated-images map,
filters segments to those with an image under one of the id variants,
launches one call per valid segment, awaits all with
`Promise.allSettled`, records the successes and marks step 5 done.  (If
`selectedScript` were null the segments access would throw inside the
`try`, landing in the catch that reverts step 5 to pending.) -/
def runVideoGeneration (st : WState) (outcome : String → GenResult)
    (download : String → String) : WState × List GenResult :=
  if st.generatedImages.length = 0 then
    ({ st with error := some "Please generate images first" }, [])
  else
    let st₁ := { st with loading := true, error := none,
                         stepStatus := st.stepStatus.set 5 .loading }
    match st.selectedScript with
    | none =>
      ({ st₁ with error := some "Failed to generate videos. Please try again."
                  stepStatus := st₁.stepStatus.set 5 .pending
                  loading := false }, [])
    | some script =>
      let validSegments := script.segments.filter
        (fun s => (segmentIdVariants s).any (fun id => truthyStr (jsGet st.generatedImages id)))
      let results := validSegments.map (fun s => outcome s.id)
      let videosMap := validSegments.foldl
        (fun m s =>
          match outcome s.id with
          | .ok k => jsSet m s.id (download k)
          | _ => m) []
      ({ st₁ with generatedVideos := videosMap
                  stepStatus := st₁.stepStatus.set 5 .done
                  loading := false }, results)

/-! ## Prompt sanitization in the generation facade (services/chat.js) -/

/-- Printable ASCII, the class kept by the replace of regex
`[^ -~]` by the empty string. -/
def isPrintableAscii (c : Char) : Bool :=
  0x20 ≤ c.toNat && c.toNat ≤ 0x7E

/-- chat.js 50: `const MAX_PROMPT_LENGTH = 800`. -/
def MAX_PROMPT_LENGTH : Nat := 800

/-- The sanitisation chain of `chatApi.generateImage` (chat.js 51-55):
strip non-printable / non-ASCII, replace newline runs by a space,
collapse whitespace runs to a single space, trim. -/
def sanitisePromptChars (l : List Char) : List Char :=
  jsTrimChars (collapseRuns isJsSpace (collapseRuns (fun c => c = '\n') (l.filter isPrintableAscii)))

/-- `safePrompt = sanitisedPrompt.substring(0, MAX_PROMPT_LENGTH)` (chat.js 56). -/
def safePrompt (visual_prompt : String) : String :=
  String.mk ((sanitisePromptChars visual_prompt.toList).take MAX_PROMPT_LENGTH)

/-- `art_style && art_style.trim() ? art_style.trim() : "realistic"`. -/
def safeArtStyle (art_style : String) : String :=
  if art_style ≠ "" && jsTrimStr art_style ≠ "" then jsTrimStr art_style else "realistic"

/-- The payload `chatApi.generateImage` posts to `/chat` (chat.js 58-65). -/
structure ImagePayload where
  model : String
  gen_type : String
  uuid : String
  visual_prompt : String
  art_style : String
  projectId : String
deriving Repr, DecidableEq

/-- The payload `chatApi.generateVideo` posts to `/chat` (chat.js 92-100). -/
structure VideoPayload where
  model : String
  gen_type : String
  uuid : String
  animation_prompt : String
  image_s3_key : String
  art_style : String
  projectId : String
deriving Repr, DecidableEq

/-- `chatApi.generateImage`: the posted payload. -/
def generateImagePayload (visual_prompt art_style uuid project_id model : String) :
    ImagePayload :=
  { model := model
    gen_type := "image"
    uuid := uuid
    visual_prompt := safePrompt visual_prompt
    art_style := safeArtStyle art_style
    projectId := project_id }

/-- `chatApi.generateVideo`: the posted payload — the animation prompt
is passed through without any sanitisation. -/
def generateVideoPayload (animation_prompt art_style image_s3_key uuid project_id model :
    String) : VideoPayload :=
  { model := model
    gen_type := "video"
    uuid := uuid
    animation_prompt := animation_prompt
    image_s3_key := image_s3_key
    art_style := safeArtStyle art_style
    projectId := project_id }

/-- Whether a character list contains two adjacent JS whitespace
characters (a run of two or more). -/
def hasDoubleWs : List Char → Bool
  | a :: b :: rest => (isJsSpace a && isJsSpace b) || hasDoubleWs (b :: rest)
  | _ => false

/-! ## Graph projection: `createFlowElements` (FlowWidget.jsx 534-677) -/

/-- The per-segment entry of `imageDetails` (FlowWidget.jsx 184-190). -/
structure ImageDetail where
  id : String
  visualPrompt : String
  artStyle : String
  s3Key : String
  allImages : List SegImage
deriving Repr, DecidableEq

/-- The per-segment entry of `videoDetails` (FlowWidget.jsx 204-208). -/
structure VideoDetail where
  id : String
  artStyle : String
  imageS3Key : String
deriving Repr, DecidableEq

/-- A processed segment of `flowData.segments`. -/
structure FlowSegment where
  id : String
  visual : String
  narration : String
  animation : String
deriving Repr, DecidableEq

/-- The `flowData` value consumed by `createFlowElements`. -/
structure FlowData where
  segments : List FlowSegment
  images : List (String × String)
  videos : List (String × String)
  imageDetails : List (String × ImageDetail)
  videoDetails : List (String × VideoDetail)
deriving Repr, DecidableEq

/-- A React-Flow node produced by `createFlowElements`, by type, with
its id, position and the data fields involved in graph structure
(purely textual payload copies are elided). -/
inductive FlowNode where
  | segmentNode (id : String) (x y : Int) (segmentId : String) (status : String)
  | addImageNode (id : String) (x y : Int) (segmentId : String) (hasExistingImages : Bool)
  | imageNode (id : String) (x y : Int) (segmentId imageId imageUrl : String) (isPrimary : Bool)
  | videoNode (id : String) (x y : Int) (segmentId imageId videoUrl videoId : String)
  | addVideoNode (id : String) (x y : Int) (segmentId imageId : String)
deriving Repr, DecidableEq

/-- The id of a node. -/
def FlowNode.nid : FlowNode → String
  | .segmentNode i _ _ _ _ => i
  | .addImageNode i _ _ _ _ => i
  | .imageNode i _ _ _ _ _ _ => i
  | .videoNode i _ _ _ _ _ _ => i
  | .addVideoNode i _ _ _ _ => i

/-- Whether a node is a video node or an add-video placeholder. -/
def FlowNode.isVideoOrAddVideo : FlowNode → Bool
  | .videoNode _ _ _ _ _ _ _ => true
  | .addVideoNode _ _ _ _ _ => true
  | _ => false

/-- A React-Flow edge (id, source node id, target node id). -/
structure FlowEdge where
  id : String
  source : String
  target : String
deriving Repr, DecidableEq

/-- `nodeSpacing = 220` — horizontal space between columns. -/
def nodeSpacing : Int := 220

/-- `rowSpacing = 300` — vertical space between images. -/
def rowSpacing : Int := 300

/-- `startX = 50`. -/
def startX : Int := 50

/-- `startY = 50`. -/
def startY : Int := 50

/-- `segmentSpacing = 600`. -/
def segmentSpacing : Int := 600

/-- Concatenate a list of (nodes, edges) pairs in order — the effect of
the loop body pushing onto `newNodes` / `newEdges`. -/
def joinPairs {A B : Type} (l : List (List A × List B)) : List A × List B :=
  l.foldr (fun p acc => (p.1 ++ acc.1, p.2 ++ acc.2)) ([], [])

/-- `imageVideoUrl` (FlowWidget.jsx 617): the video url for the
`segment-image` pair, falling back to the segment-level video, with JS
truthiness (`""` models `undefined`). -/
def imageVideoUrl (fd : FlowData) (segment : FlowSegment) (image : SegImage) : String :=
  jsOrStr ((jsGet fd.videos (segment.id ++ "-" ++ image.id)).getD "")
    ((jsGet fd.videos segment.id).getD "")

/-- `imageVideoId` (FlowWidget.jsx 618). -/
def imageVideoId (fd : FlowData) (segment : FlowSegment) (image : SegImage) : String :=
  jsOrStr
    (((jsGet fd.videoDetails (segment.id ++ "-" ++ image.id)).map (fun d => d.id)).getD "")
    (((jsGet fd.videoDetails segment.id).map (fun d => d.id)).getD "")

/-- The node pushed to the right of one image: the video node when
`imageVideoUrl` is truthy, else the add-video placeholder
(FlowWidget.jsx 620-660). -/
def videoCellNode (fd : FlowData) (segment : FlowSegment) (videoX imageY : Int)
    (image : SegImage) : FlowNode :=
  if imageVideoUrl fd segment image ≠ "" then
    FlowNode.videoNode ("video-" ++ segment.id ++ "-" ++ image.id) videoX imageY
      segment.id image.id (imageVideoUrl fd segment image) (imageVideoId fd segment image)
  else
    FlowNode.addVideoNode ("add-video-" ++ segment.id ++ "-" ++ image.id) videoX imageY
      segment.id image.id

/-- The edge pushed from one image to its video cell
(FlowWidget.jsx 638-668). -/
def videoCellEdge (fd : FlowData) (segment : FlowSegment) (image : SegImage) : FlowEdge :=
  if imageVideoUrl fd segment image ≠ "" then
    ⟨"image-" ++ segment.id ++ "-" ++ image.id ++ "-to-video-" ++ segment.id ++ "-" ++
        image.id,
      "image-" ++ segment.id ++ "-" ++ image.id,
      "video-" ++ segment.id ++ "-" ++ image.id⟩
  else
    ⟨"image-" ++ segment.id ++ "-" ++ image.id ++ "-to-add-video-" ++ segment.id ++ "-" ++
        image.id,
      "image-" ++ segment.id ++ "-" ++ image.id,
      "add-video-" ++ segment.id ++ "-" ++ image.id⟩

/-- The nodes and edges pushed for one image of a segment
(FlowWidget.jsx 587-670): the image node, its edge from the add-image
anchor, and the video cell with its edge. -/
def imageRowElements (fd : FlowData) (segment : FlowSegment) (y : Int) (imageIndex : Nat)
    (image : SegImage) : List FlowNode × List FlowEdge :=
  ([FlowNode.imageNode ("image-" ++ segment.id ++ "-" ++ image.id)
      (startX + nodeSpacing + nodeSpacing) (y + (imageIndex : Int) * rowSpacing)
      segment.id image.id image.url image.isPrimary,
    videoCellNode fd segment (startX + nodeSpacing + nodeSpacing + nodeSpacing)
      (y + (imageIndex : Int) * rowSpacing) image],
   [⟨"add-image-" ++ segment.id ++ "-to-image-" ++ segment.id ++ "-" ++ image.id,
      "add-image-" ++ segment.id, "image-" ++ segment.id ++ "-" ++ image.id⟩,
    videoCellEdge fd segment image])

/-- The image rows of one segment: present only when
`flowData.images[segment.id]` is truthy and a details entry exists
(the guard at FlowWidget.jsx 586). -/
def segmentRows (fd : FlowData) (segment : FlowSegment) (y : Int) :
    List FlowNode × List FlowEdge :=
  if truthyStr (jsGet fd.images segment.id) then
    match jsGet fd.imageDetails segment.id with
    | some detail =>
      joinPairs ((detail.allImages.enum).map (fun p => imageRowElements fd segment y p.1 p.2))
    | none => ([], [])
  else ([], [])

/-- The nodes and edges pushed for one segment (FlowWidget.jsx 547-672):
the segment node, the add-image anchor, the edge between them, and the
image rows. -/
def segmentElements (fd : FlowData) (segIndex : Nat) (segment : FlowSegment) :
    List FlowNode × List FlowEdge :=
  let x := startX
  let y := startY + (segIndex : Int) * segmentSpacing
  let segNodeId := "segment-" ++ segment.id
  let addImageId := "add-image-" ++ segment.id
  let status :=
    if truthyStr (jsGet fd.videos segment.id) then "completed"
    else if truthyStr (jsGet fd.images segment.id) then "generating"
    else "pending"
  let segNode := FlowNode.segmentNode segNodeId x y segment.id status
  let addImgNode := FlowNode.addImageNode addImageId (x + nodeSpacing) y segment.id
    (truthyStr (jsGet fd.images segment.id))
  let e1 : FlowEdge := ⟨segNodeId ++ "-to-" ++ addImageId, segNodeId, addImageId⟩
  (segNode :: addImgNode :: (segmentRows fd segment y).1,
   e1 :: (segmentRows fd segment y).2)

/-- `createFlowElements`: the full node and edge lists
(FlowWidget.jsx 534-677). -/
def createFlowElements (fd : FlowData) : List FlowNode × List FlowEdge :=
  if fd.segments.length > 0 then
    joinPairs (fd.segments.enum.map (fun p => segmentElements fd p.1 p.2))
  else ([], [])

end FlowSpec

namespace FlowSpec

/-! ## Helper lemmas -/

theorem takeWhile_digits_append (N : List Char) (rest : List Char)
    (hN : N.all Char.isDigit) :
    (N ++ '-' :: rest).takeWhile Char.isDigit = N := by
  induction N with
  | nil => simp [List.takeWhile]
  | cons c cs ih =>
    simp only [List.all_cons, Bool.and_eq_true] at hN
    simp [List.takeWhile, hN.1, ih hN.2]

theorem dropWhile_digits_append (N : List Char) (rest : List Char)
    (hN : N.all Char.isDigit) :
    (N ++ '-' :: rest).dropWhile Char.isDigit = '-' :: rest := by
  induction N with
  | nil => simp [List.dropWhile]
  | cons c cs ih =>
    simp only [List.all_cons, Bool.and_eq_true] at hN
    simp [List.dropWhile, hN.1, ih hN.2]

theorem takeWhile_digits_self (N : List Char) (hN : N.all Char.isDigit) :
    N.takeWhile Char.isDigit = N := by
  induction N with
  | nil => rfl
  | cons c cs ih =>
    simp only [List.all_cons, Bool.and_eq_true] at hN
    simp [List.takeWhile, hN.1, ih hN.2]

theorem dropWhile_digits_self (N : List Char) (hN : N.all Char.isDigit) :
    N.dropWhile Char.isDigit = [] := by
  induction N with
  | nil => rfl
  | cons c cs ih =>
    simp only [List.all_cons, Bool.and_eq_true] at hN
    simp [List.dropWhile, hN.1, ih hN.2]

theorem consumeLit_seg_digits (N : List Char) (hne : N ≠ []) (hN : N.all Char.isDigit) :
    consumeLit ['s', 'e', 'g', '-'] N = none := by
  match N, hne with
  | c :: cs, _ =>
    simp only [List.all_cons, Bool.and_eq_true] at hN
    have hcs : ¬(c = 's') := by
      intro h
      subst h
      simp [Char.isDigit] at hN
    simp [consumeLit, hcs]

theorem matchSegNum_bare (N : List Char) (hne : N ≠ []) (hN : N.all Char.isDigit) :
    matchSegNum N = none := by
  unfold matchSegNum
  rw [consumeLit_seg_digits N hne hN]

theorem stripLeadingSeg_bare (N : List Char) (hne : N ≠ []) (hN : N.all Char.isDigit) :
    stripLeadingSeg N = N := by
  unfold stripLeadingSeg
  rw [consumeLit_seg_digits N hne hN]

theorem consumeLit_seg_cons (N : List Char) :
    consumeLit ['s', 'e', 'g', '-'] ('s' :: 'e' :: 'g' :: '-' :: N) = some N := by
  simp [consumeLit]

theorem matchSegNum_segN (N : List Char) (hne : N ≠ []) (hN : N.all Char.isDigit) :
    matchSegNum ('s' :: 'e' :: 'g' :: '-' :: N) = some N := by
  unfold matchSegNum
  rw [consumeLit_seg_cons]
  simp [takeWhile_digits_self N hN, dropWhile_digits_self N hN, hne]

theorem matchSegNum_segNT (N T : List Char) (hneN : N ≠ []) (hN : N.all Char.isDigit)
    (hneT : T ≠ []) (hT : T.all Char.isDigit) :
    matchSegNum ('s' :: 'e' :: 'g' :: '-' :: (N ++ '-' :: T)) = some N := by
  unfold matchSegNum
  rw [consumeLit_seg_cons]
  simp [takeWhile_digits_append N T hN, dropWhile_digits_append N T hN, hneN, hneT, hT]

theorem stripLeadingSeg_cons (N : List Char) :
    stripLeadingSeg ('s' :: 'e' :: 'g' :: '-' :: N) = N := by
  unfold stripLeadingSeg
  rw [consumeLit_seg_cons]

/-- C2 counterexample: the claim asserts that the video-record path also
maps the shape `seg-N-T` to `N`, but `videoSegmentKey` only strips the
leading `seg-`, sending `"seg-2-123"` to `"2-123"`, not to `"2"` (the image
path does send it to `"2"`). -/
theorem claimC2_normalization_cex :
    videoSegmentKey "seg-2-123" = "2-123" ∧ ("2-123" : String) ≠ "2" ∧
      imageSegmentKey "seg-2-123" = "2" := by
  refine ⟨by decide, by decide, by decide⟩

/-- C2 (amended): the image-record normalization maps all three uuid shapes
`N`, `seg-N`, `seg-N-T` to the canonical key `N`; the video-record
normalization strips only the leading `seg-`, so it maps `N` and `seg-N`
to `N` but preserves the `-T` suffix of `seg-N-T`; the segment-extraction
path returns the explicit `segmentId` field when present (else the bare
id), with no further normalization. -/
theorem claimC2_normalization (N T : List Char) (hneN : N ≠ [])
    (hN : N.all Char.isDigit) (hneT : T ≠ []) (hT : T.all Char.isDigit)
    (seg : RawSegment) (hseg : seg.segmentId ≠ "") :
    imageSegmentKey (String.mk N) = String.mk N ∧
    imageSegmentKey (String.mk ('s' :: 'e' :: 'g' :: '-' :: N)) = String.mk N ∧
    imageSegmentKey (String.mk ('s' :: 'e' :: 'g' :: '-' :: (N ++ '-' :: T))) = String.mk N ∧
    videoSegmentKey (String.mk N) = String.mk N ∧
    videoSegmentKey (String.mk ('s' :: 'e' :: 'g' :: '-' :: N)) = String.mk N ∧
    videoSegmentKey (String.mk ('s' :: 'e' :: 'g' :: '-' :: (N ++ '-' :: T))) =
      String.mk (N ++ '-' :: T) ∧
    segmentKeyOf seg = seg.segmentId := by
  have htl : ∀ l : List Char, (String.mk l).toList = l := fun _ => rfl
  refine ⟨?_, ?_, ?_, ?_, ?_, ?_, ?_⟩
  · simp [imageSegmentKey, htl, matchSegNum_bare N hneN hN]
  · simp [imageSegmentKey, htl, matchSegNum_segN N hneN hN]
  · simp [imageSegmentKey, htl, matchSegNum_segNT N T hneN hN hneT hT]
  · simp [videoSegmentKey, htl, stripLeadingSeg_bare N hneN hN]
  · simp [videoSegmentKey, htl, stripLeadingSeg_cons]
  · simp [videoSegmentKey, htl, stripLeadingSeg_cons]
  · simp [segmentKeyOf, hseg]

/-- C2 witness: the amended theorem instantiated at `N = "7"`, `T = "42"`
and a segment record with explicit `segmentId = "7"`. -/
theorem claimC2_normalization_witness :
    imageSegmentKey (String.mk ['7']) = String.mk ['7'] ∧
    imageSegmentKey (String.mk ('s' :: 'e' :: 'g' :: '-' :: ['7'])) = String.mk ['7'] ∧
    imageSegmentKey (String.mk ('s' :: 'e' :: 'g' :: '-' :: (['7'] ++ '-' :: ['4', '2']))) =
      String.mk ['7'] ∧
    videoSegmentKey (String.mk ['7']) = String.mk ['7'] ∧
    videoSegmentKey (String.mk ('s' :: 'e' :: 'g' :: '-' :: ['7'])) = String.mk ['7'] ∧
    videoSegmentKey (String.mk ('s' :: 'e' :: 'g' :: '-' :: (['7'] ++ '-' :: ['4', '2']))) =
      String.mk (['7'] ++ '-' :: ['4', '2']) ∧
    segmentKeyOf ⟨"s1", "7", "", "", ""⟩ = "7" :=
  claimC2_normalization ['7'] ['4', '2'] (by decide) (by decide) (by decide) (by decide)
    ⟨"s1", "7", "", "", ""⟩ (by decide)

/-! ## Lemmas about JS maps -/

theorem jsGet_jsSet_self {α : Type} (m : List (String × α)) (k : String) (v : α) :
    jsGet (jsSet m k v) k = some v := by
  induction m with
  | nil => simp [jsSet, jsGet]
  | cons kv rest ih =>
    obtain ⟨k', v'⟩ := kv
    by_cases h : k' = k
    · simp [jsSet, jsGet, h]
    · simp [jsSet, jsGet, h, ih]

theorem jsGet_jsSet_ne {α : Type} (m : List (String × α)) (k : String) (v : α) (k' : String) (h : k' ≠ k) :
    jsGet (jsSet m k v) k' = jsGet m k' := by
  have hk : k ≠ k' := Ne.symm h
  induction m with
  | nil => simp [jsSet, jsGet, hk]
  | cons kv rest ih =>
    obtain ⟨k₀, v₀⟩ := kv
    by_cases h₀ : k₀ = k
    · subst h₀
      simp [jsSet, jsGet, hk]
    · simp only [jsSet, if_neg h₀, jsGet]
      by_cases h₁ : k₀ = k'
      · simp [h₁]
      · simp [h₁, ih]

theorem jsGet_foldl_not_mem {α : Type} (l : List (String × α)) (m : List (String × α))
    (k : String) (h : ∀ kv ∈ l, kv.1 ≠ k) :
    jsGet (l.foldl (fun m kv => jsSet m kv.1 kv.2) m) k = jsGet m k := by
  induction l generalizing m with
  | nil => rfl
  | cons kv rest ih =>
    have hkv : kv.1 ≠ k := h kv (List.mem_cons_self kv rest)
    have hrest : ∀ kv' ∈ rest, kv'.1 ≠ k := fun kv' hm => h kv' (List.mem_cons_of_mem kv hm)
    rw [List.foldl_cons, ih (jsSet m kv.1 kv.2) hrest]
    exact jsGet_jsSet_ne m kv.1 kv.2 k (by intro hh; exact hkv hh.symm) ▸ rfl

theorem lastAssoc_none_all_ne {α : Type} (l : List (String × α)) (k : String)
    (h : lastAssoc l k = none) : ∀ kv ∈ l, kv.1 ≠ k := by
  induction l with
  | nil => intro kv hm; cases hm
  | cons kv₀ rest ih =>
    intro kv hm
    unfold lastAssoc at h
    cases hrest : lastAssoc rest k with
    | some u => rw [hrest] at h; cases h
    | none =>
      rw [hrest] at h
      rcases List.mem_cons.mp hm with h₁ | h₁
      · subst h₁
        intro hk
        rw [if_pos hk] at h
        cases h
      · exact ih hrest kv h₁

theorem jsGet_foldl_last {α : Type} (l : List (String × α)) (m : List (String × α))
    (k : String) (u : α) (h : lastAssoc l k = some u) :
    jsGet (l.foldl (fun m kv => jsSet m kv.1 kv.2) m) k = some u := by
  induction l generalizing m with
  | nil => cases h
  | cons kv₀ rest ih =>
    unfold lastAssoc at h
    cases hrest : lastAssoc rest k with
    | some u' =>
      rw [hrest] at h
      cases h
      exact ih (jsSet m kv₀.1 kv₀.2) hrest
    | none =>
      rw [hrest] at h
      by_cases hk : kv₀.1 = k
      · rw [if_pos hk] at h
        cases h
        rw [List.foldl_cons,
          jsGet_foldl_not_mem rest (jsSet m kv₀.1 kv₀.2) k (lastAssoc_none_all_ne rest k hrest),
          hk]
        exact jsGet_jsSet_self m k kv₀.2
      · rw [if_neg hk] at h
        cases h

/-! ## C1: preview-video precedence -/

/-- C1 counterexample: a canonical server video exists under the key
`1-5` (uuid `seg-1-5`), and a PreviewVideo (`temporaryVideos`) entry for
the same key replaces it in the merged display map, contradicting the
claim that canonical entries are never overridden. -/
theorem claimC1_preview_precedence_cex :
    jsGet (buildVideosMap [⟨"v1", true, "seg-1-5", [⟨"vid.mp4"⟩], "", ""⟩]) "1-5" =
      some "https://ds0fghatf06yb.cloudfront.net/vid.mp4" ∧
    jsGet (mergedVideosMap [⟨"v1", true, "seg-1-5", [⟨"vid.mp4"⟩], "", ""⟩]
        [("1-5", "blob:preview")]) "1-5" = some "blob:preview" ∧
    ("blob:preview" : String) ≠ "https://ds0fghatf06yb.cloudfront.net/vid.mp4" := by
  refine ⟨by decide, by decide, by decide⟩

/-- C1 (amended): in the merged display video map, PreviewVideo
(`temporaryVideos`) entries take precedence: a key written by the preview
overlay carries the (last) preview value even when a canonical entry
exists, and keys not touched by any preview entry keep their canonical
value (previews do fill keys with no canonical video). -/
theorem claimC1_preview_precedence (raws : List RawVideo)
    (temps : List (String × String)) (k : String) :
    ((∀ kv ∈ temps, kv.1 ≠ k) →
      jsGet (mergedVideosMap raws temps) k = jsGet (buildVideosMap raws) k) ∧
    (∀ u, lastAssoc temps k = some u → jsGet (mergedVideosMap raws temps) k = some u) := by
  constructor
  · intro h
    exact jsGet_foldl_not_mem temps (buildVideosMap raws) k h
  · intro u h
    exact jsGet_foldl_last temps (buildVideosMap raws) k u h

/-- C1 witness: the amended theorem applied to one canonical video under
key `1-5`, one preview entry under key `2-9`, probing key `2-9` (gap
filled by the preview) and key `1-5` (canonical value kept). -/
theorem claimC1_preview_precedence_witness :
    jsGet (mergedVideosMap [⟨"v1", true, "seg-1-5", [⟨"vid.mp4"⟩], "", ""⟩]
      [("2-9", "blob:p")]) "2-9" = some "blob:p" ∧
    jsGet (mergedVideosMap [⟨"v1", true, "seg-1-5", [⟨"vid.mp4"⟩], "", ""⟩]
        [("2-9", "blob:p")]) "1-5" =
      jsGet (buildVideosMap [⟨"v1", true, "seg-1-5", [⟨"vid.mp4"⟩], "", ""⟩]) "1-5" :=
  ⟨(claimC1_preview_precedence [⟨"v1", true, "seg-1-5", [⟨"vid.mp4"⟩], "", ""⟩]
      [("2-9", "blob:p")] "2-9").2 "blob:p" (by decide),
   (claimC1_preview_precedence [⟨"v1", true, "seg-1-5", [⟨"vid.mp4"⟩], "", ""⟩]
      [("2-9", "blob:p")] "1-5").1 (by decide)⟩

/-! ## Lemmas about the stable primary-first sort -/

theorem sortInsert_app (x : SegImage) (A B : List SegImage)
    (hA : ∀ a ∈ A, a.isPrimary = true) (hB : ∀ b ∈ B, b.isPrimary = false) :
    sortInsert primaryCmp x (A ++ B) =
      if x.isPrimary then A ++ x :: B else A ++ B ++ [x] := by
  induction A with
  | nil =>
    induction B with
    | nil => simp [sortInsert]
    | cons b bs ihB =>
      have hb : b.isPrimary = false := hB b (List.mem_cons_self b bs)
      have hbs : ∀ y ∈ bs, y.isPrimary = false := fun y hy => hB y (List.mem_cons_of_mem b hy)
      by_cases hx : x.isPrimary
      · simp [sortInsert, primaryCmp, hb, hx]
      · simp only [Bool.not_eq_true] at hx
        simp only [List.nil_append] at ihB ⊢
        simp [sortInsert, primaryCmp, hb, hx, ihB hbs]
  | cons a as ihA =>
    have ha : a.isPrimary = true := hA a (List.mem_cons_self a as)
    have has : ∀ y ∈ as, y.isPrimary = true := fun y hy => hA y (List.mem_cons_of_mem a hy)
    by_cases hx : x.isPrimary
    · simp [sortInsert, primaryCmp, ha, hx, ihA has]
    · simp only [Bool.not_eq_true] at hx
      simp [sortInsert, primaryCmp, ha, hx, ihA has]

theorem foldl_sortInsert_partition (l : List SegImage) :
    ∀ A B : List SegImage, (∀ a ∈ A, a.isPrimary = true) → (∀ b ∈ B, b.isPrimary = false) →
      l.foldl (fun acc x => sortInsert primaryCmp x acc) (A ++ B) =
        (A ++ l.filter (fun i => i.isPrimary)) ++ (B ++ l.filter (fun i => !i.isPrimary)) := by
  induction l with
  | nil => intro A B _ _; simp
  | cons x xs ih =>
    intro A B hA hB
    rw [List.foldl_cons, sortInsert_app x A B hA hB]
    by_cases hx : x.isPrimary
    · rw [if_pos hx]
      have : A ++ x :: B = (A ++ [x]) ++ B := by simp
      rw [this, ih (A ++ [x]) B
        (by intro a ha
            rcases List.mem_append.mp ha with h | h
            · exact hA a h
            · simp only [List.mem_singleton] at h; subst h; exact hx)
        hB]
      simp [List.filter_cons, hx]
    · simp only [Bool.not_eq_true] at hx
      rw [if_neg (by simp [hx])]
      have : A ++ B ++ [x] = A ++ (B ++ [x]) := by simp
      rw [this, ih A (B ++ [x]) hA
        (by intro b hb
            rcases List.mem_append.mp hb with h | h
            · exact hB b h
            · simp only [List.mem_singleton] at h; subst h; exact hx)]
      simp [List.filter_cons, hx]

theorem jsSortStable_partition (l : List SegImage) :
    jsSortStable primaryCmp l =
      l.filter (fun i => i.isPrimary) ++ l.filter (fun i => !i.isPrimary) := by
  have := foldl_sortInsert_partition l [] [] (by intro a h; cases h) (by intro b h; cases h)
  simpa [jsSortStable] using this

/-! ## C3: primary-first selection -/

/-- C3: for a segment whose accumulated image list is non-empty and has
at most one flagged-primary image, the primary-first sort is the stable
partition of the arrival-ordered list (flagged images first, ties in
arrival order), one primary image is surfaced (the head of the sorted
list), that image is the flagged one whenever one exists, and the flag
is the server's explicit boolean when present, else the uuid-shape
heuristic. -/
theorem claimC3_primary_sort (raws : List RawImage) (key : String)
    (hne : imagesForSegment raws key ≠ [])
    (hcount : ((imagesForSegment raws key).filter (fun i => i.isPrimary)).length ≤ 1) :
    sortedImagesForSegment raws key =
        (imagesForSegment raws key).filter (fun i => i.isPrimary) ++
          (imagesForSegment raws key).filter (fun i => !i.isPrimary) ∧
    (primaryImageFor raws key).isSome = true ∧
    (∀ q ∈ imagesForSegment raws key, q.isPrimary = true →
      primaryImageFor raws key = some q) ∧
    (∀ img : RawImage, (mkSegImage img).isPrimary =
      (match img.isPrimary with
       | some b => b
       | none => !(img.uuid.toList.contains '-'))) := by
  have hpart := jsSortStable_partition (imagesForSegment raws key)
  refine ⟨hpart, ?_, ?_, fun _ => rfl⟩
  · match hl : imagesForSegment raws key, hne with
    | x :: xs, _ =>
      unfold primaryImageFor sortedImagesForSegment
      rw [hl] at hpart ⊢
      rw [hpart]
      by_cases hx : x.isPrimary
      · simp [List.filter_cons, hx]
      · simp only [Bool.not_eq_true] at hx
        simp [List.filter_cons, hx]
  · intro q hq hqp
    have hmem : q ∈ (imagesForSegment raws key).filter (fun i => i.isPrimary) :=
      List.mem_filter.mpr ⟨hq, hqp⟩
    have hlen : ((imagesForSegment raws key).filter (fun i => i.isPrimary)).length = 1 := by
      have : 1 ≤ ((imagesForSegment raws key).filter (fun i => i.isPrimary)).length :=
        List.length_pos.mpr (List.ne_nil_of_mem hmem)
      omega
    obtain ⟨a, ha⟩ := List.length_eq_one.mp hlen
    rw [ha] at hmem
    simp only [List.mem_singleton] at hmem
    subst hmem
    unfold primaryImageFor sortedImagesForSegment
    rw [hpart, ha]
    rfl

/-- C3 witness: two images for segment key `3` — an unflagged one
arriving first (uuid `seg-3-111`, heuristic says non-primary) and an
explicitly flagged one arriving second (uuid `seg-3`). The flagged one
is surfaced as the primary. -/
theorem claimC3_primary_sort_witness :
    imagesForSegment
        [⟨"i1", true, "a.png", "seg-3-111", "", "", none⟩,
         ⟨"i2", true, "b.png", "seg-3", "", "", some true⟩] "3" ≠ [] ∧
    primaryImageFor
        [⟨"i1", true, "a.png", "seg-3-111", "", "", none⟩,
         ⟨"i2", true, "b.png", "seg-3", "", "", some true⟩] "3" =
      some (mkSegImage ⟨"i2", true, "b.png", "seg-3", "", "", some true⟩) :=
  ⟨by decide,
   (claimC3_primary_sort
      [⟨"i1", true, "a.png", "seg-3-111", "", "", none⟩,
       ⟨"i2", true, "b.png", "seg-3", "", "", some true⟩] "3"
      (by decide) (by decide)).2.2.1
     (mkSegImage ⟨"i2", true, "b.png", "seg-3", "", "", some true⟩)
     (by decide) (by decide)⟩

/-! ## C5: one active generation task per entity key -/

theorem not_mem_setDelete (s : List String) (k : String) : k ∉ setDelete s k := by
  simp [setDelete]

/-- C5 counterexample: `handleCreateNewImage` checks only authentication,
not `creatingImages.has(segmentId)`; invoking it for segment `7` while a
create task for `7` is already in flight launches a second call instead
of being a no-op. -/
theorem claimC5_single_task_cex :
    (startCreateNewImage ⟨[], [], ["7"], [], none⟩ true (some "p") "7").2 = true := by
  decide

/-- C5 (amended): the one-active-task-per-key invariant is enforced for
regenerate-image (keyed by image id), regenerate-video (keyed by video
id) and create-new-video (keyed by image id): invoking them while the
key is in the in-flight set is a no-op that launches nothing, and once
the task settles (the key is deleted) a new invocation launches again.
`handleCreateNewImage` however is guarded only by authentication and
launches even when a create task for the same segment is in flight. -/
theorem claimC5_single_task (st : FWState) (p : String)
    (imageId videoId vidImageId segmentId : String)
    (hri : imageId ∈ st.regeneratingImages)
    (hrv : videoId ∈ st.regeneratingVideos)
    (hcv : vidImageId ∈ st.creatingVideos) :
    (∀ auth pid, startRegenerateImage st auth pid imageId = (st, false)) ∧
    (∀ auth pid, startRegenerateVideo st auth pid videoId = (st, false)) ∧
    (∀ auth pid, startCreateNewVideo st auth pid vidImageId = (st, false)) ∧
    (startRegenerateImage (settleRegenerateImage st imageId) true (some p) imageId).2 = true ∧
    (startRegenerateVideo (settleRegenerateVideo st videoId) true (some p) videoId).2 = true ∧
    (startCreateNewVideo (settleCreateNewVideo st vidImageId) true (some p) vidImageId).2
      = true ∧
    (startCreateNewImage st true (some p) segmentId).2 = true := by
  refine ⟨?_, ?_, ?_, ?_, ?_, ?_, ?_⟩
  · intro auth pid; simp [startRegenerateImage, hri]
  · intro auth pid; simp [startRegenerateVideo, hrv]
  · intro auth pid; simp [startCreateNewVideo, hcv]
  · simp [startRegenerateImage, settleRegenerateImage, not_mem_setDelete]
  · simp [startRegenerateVideo, settleRegenerateVideo, not_mem_setDelete]
  · simp [startCreateNewVideo, settleCreateNewVideo, not_mem_setDelete]
  · simp [startCreateNewImage]

/-- C5 witness: the amended theorem at a state with image `i`, video `v`
and create-video image `w` in flight. -/
theorem claimC5_single_task_witness :
    (∀ auth pid,
      startRegenerateImage ⟨["i"], ["v"], [], ["w"], none⟩ auth pid "i"
        = (⟨["i"], ["v"], [], ["w"], none⟩, false)) ∧
    (startCreateNewImage ⟨["i"], ["v"], [], ["w"], none⟩ true (some "p") "s").2 = true := by
  have h := claimC5_single_task ⟨["i"], ["v"], [], ["w"], none⟩ "p" "i" "v" "w" "s"
    (by decide) (by decide) (by decide)
  exact ⟨h.1, h.2.2.2.2.2.2⟩

/-! ## C6: reconciliation failure handling -/

/-- C6 counterexample: a `success=false` segmentations response does not
abort the reconcile — the merge still runs, installing a view with an
empty segment list and the freshly fetched images, and no error is
reported; the previously installed view is replaced. -/
theorem claimC6_reconcile_cex :
    (refreshProjectData ⟨⟨[⟨"1", "", "v", "n", "a"⟩], [], []⟩, none, false⟩ true (some "p")
        (.ok (⟨false, []⟩, ⟨true, [⟨"i1", true, "a.png", "seg-1", "", "", none⟩]⟩,
          ⟨true, []⟩))).allProjectData ≠
      (⟨[⟨"1", "", "v", "n", "a"⟩], [], []⟩ : AllProjectData) ∧
    (refreshProjectData ⟨⟨[⟨"1", "", "v", "n", "a"⟩], [], []⟩, none, false⟩ true (some "p")
        (.ok (⟨false, []⟩, ⟨true, [⟨"i1", true, "a.png", "seg-1", "", "", none⟩]⟩,
          ⟨true, []⟩))).error = none := by
  refine ⟨by decide, by decide⟩

/-- C6 (amended): only a thrown/rejected fetch aborts the reconcile:
when any of the three parallel requests rejects, `Promise.all` rejects,
a single error message is reported and `allProjectData` is left
unchanged.  A resolved response with `success=false` is not treated as
failure: the combination step still runs and installs a new view that
treats the unsuccessful segmentations collection as empty (and passes
the other collections through). -/
theorem claimC6_reconcile_failure (st : ProjState) (p : String) (e : String)
    (sd : FetchResp Segmentation) (imd : FetchResp RawImage) (vd : FetchResp RawVideo)
    (hsd : sd.success = false) :
    ((refreshProjectData st true (some p) (.error e)).allProjectData = st.allProjectData ∧
      (refreshProjectData st true (some p) (.error e)).error =
        some "Failed to fetch project data") ∧
    ((refreshProjectData st true (some p) (.ok (sd, imd, vd))).allProjectData =
        ⟨[], imd.data, vd.data⟩ ∧
      (refreshProjectData st true (some p) (.ok (sd, imd, vd))).error = st.error) := by
  refine ⟨⟨?_, ?_⟩, ⟨?_, ?_⟩⟩ <;> simp [refreshProjectData, hsd]

/-- C6 witness: the amended theorem at a concrete prior view, a thrown
fetch, and a `success=false` segmentations response. -/
theorem claimC6_reconcile_failure_witness :
    (refreshProjectData ⟨⟨[⟨"1", "", "v", "n", "a"⟩], [], []⟩, none, false⟩ true (some "p")
        (.error "boom")).allProjectData = (⟨[⟨"1", "", "v", "n", "a"⟩], [], []⟩ : AllProjectData) ∧
    (refreshProjectData ⟨⟨[⟨"1", "", "v", "n", "a"⟩], [], []⟩, none, false⟩ true (some "p")
        (.ok (⟨false, []⟩, ⟨true, []⟩, ⟨true, []⟩))).allProjectData =
      (⟨[], [], []⟩ : AllProjectData) := by
  have h := claimC6_reconcile_failure ⟨⟨[⟨"1", "", "v", "n", "a"⟩], [], []⟩, none, false⟩
    "p" "boom" ⟨false, []⟩ ⟨true, []⟩ ⟨true, []⟩ (by decide)
  exact ⟨h.1.1, h.2.1⟩

/-! ## C7: failures revert steps to pending -/

/-- C7: an empty (after trimming) prompt makes `runConceptWriter` return
without attempting any external call and without touching the step
statuses; a rejction of either external call (web-info or concept
generation) reverts step 0 to `pending` and surfaces the failure only
through the side-channel error message; `runScriptGeneration` reverts
step 2 to `pending` the same way; and step statuses range only over
pending / loading / done. -/
theorem claimC7_failure_reverts_pending (st : WState) (prompt : String)
    (w : Except String String) (cres : Except String (List Concept))
    (e s : String) (c : Concept) (r : Script) (r2 : Except String Script)
    (hc : st.selectedConcept = some c) :
    (jsTrimStr prompt = "" →
      (runConceptWriter st prompt w cres).1.stepStatus = st.stepStatus ∧
      (runConceptWriter st prompt w cres).2 = false) ∧
    (jsTrimStr prompt ≠ "" →
      (runConceptWriter st prompt (.error e) cres).1.stepStatus.get 0 = .pending ∧
      (runConceptWriter st prompt (.error e) cres).1.error.isSome = true ∧
      (runConceptWriter st prompt (.ok s) (.error e)).1.stepStatus.get 0 = .pending ∧
      (runConceptWriter st prompt (.ok s) (.error e)).1.error.isSome = true) ∧
    ((runScriptGeneration st (.error e) r2).stepStatus.get 2 = .pending ∧
      (runScriptGeneration st (.error e) r2).error.isSome = true ∧
      (runScriptGeneration st (.ok r) (.error e)).stepStatus.get 2 = .pending ∧
      (runScriptGeneration st (.ok r) (.error e)).error.isSome = true) ∧
    (∀ v : StepState, v = .pending ∨ v = .loading ∨ v = .done) := by
  refine ⟨?_, ?_, ?_, ?_⟩
  · intro h
    simp [runConceptWriter, h]
  · intro h
    refine ⟨?_, ?_, ?_, ?_⟩ <;>
      simp [runConceptWriter, h, jsOrStr, StepStatus.set, StepStatus.get]
  · refine ⟨?_, ?_, ?_, ?_⟩ <;>
      · cases r2 <;> simp [runScriptGeneration, hc, jsOrStr, StepStatus.set, StepStatus.get]
  · intro v
    cases v
    · exact Or.inl rfl
    · exact Or.inr (Or.inl rfl)
    · exact Or.inr (Or.inr rfl)

/-- C7 witness: the theorem at a pending state with a selected concept,
probing both the empty-prompt branch and the failing-call branches. -/
theorem claimC7_failure_reverts_pending_witness :
    (runConceptWriter
        ⟨0, ⟨.pending, .pending, .pending, .pending, .pending, .pending⟩, none, some ⟨"c"⟩,
          none, none, [], [], false, none⟩
        "  " (.error "x") (.ok [])).2 = false ∧
    (runConceptWriter
        ⟨0, ⟨.pending, .pending, .pending, .pending, .pending, .pending⟩, none, some ⟨"c"⟩,
          none, none, [], [], false, none⟩
        "go" (.error "x") (.ok [])).1.stepStatus.get 0 = .pending := by
  have h := claimC7_failure_reverts_pending
    ⟨0, ⟨.pending, .pending, .pending, .pending, .pending, .pending⟩, none, some ⟨"c"⟩,
      none, none, [], [], false, none⟩
    "  " (.error "x") (.ok []) "x" "w" ⟨"c"⟩ ⟨[], "", ""⟩ (.ok ⟨[], "", ""⟩) rfl
  have h2 := claimC7_failure_reverts_pending
    ⟨0, ⟨.pending, .pending, .pending, .pending, .pending, .pending⟩, none, some ⟨"c"⟩,
      none, none, [], [], false, none⟩
    "go" (.error "x") (.ok []) "x" "w" ⟨"c"⟩ ⟨[], "", ""⟩ (.ok ⟨[], "", ""⟩) rfl
  exact ⟨(h.1 (by decide)).2, (h2.2.1 (by decide)).1⟩

/-! ## C8: step advancement -/

/-- C8: with a project selected, the derived-status effect makes a
selected concept imply step 1 done and a selected script with non-empty
segments imply step 3 done; selecting a concept sets step 1 done and
advances to step 2; selecting a script sets step 3 done and advances to
step 4. -/
theorem claimC8_step_advancement (st : WState) (p : String) (c : Concept) (script : Script) :
    (st.selectedConcept = some c →
      (runStepStatusEffect (some p) st).stepStatus.get 1 = .done) ∧
    (st.selectedScript = some script → script.segments ≠ [] →
      (runStepStatusEffect (some p) st).stepStatus.get 3 = .done) ∧
    ((handleConceptSelect st c).stepStatus.get 1 = .done ∧
      (handleConceptSelect st c).currentStep = 2) ∧
    ((handleScriptSelect st script).stepStatus.get 3 = .done ∧
      (handleScriptSelect st script).currentStep = 4) := by
  refine ⟨?_, ?_, ⟨?_, ?_⟩, ⟨?_, ?_⟩⟩
  · intro h
    simp [runStepStatusEffect, deriveStepStatus, StepStatus.get, h]
  · intro h hne
    have hlen : 0 < script.segments.length := List.length_pos.mpr hne
    simp [runStepStatusEffect, deriveStepStatus, StepStatus.get, h, hlen]
  · simp [handleConceptSelect, StepStatus.set, StepStatus.get]
  · rfl
  · simp [handleScriptSelect, StepStatus.set, StepStatus.get]
  · rfl

/-- C8 witness: the theorem at a state with a selected concept and a
selected one-segment script. -/
theorem claimC8_step_advancement_witness :
    (runStepStatusEffect (some "p")
        ⟨2, ⟨.pending, .pending, .pending, .pending, .pending, .pending⟩, none, some ⟨"c"⟩,
          none, some ⟨[⟨"1", "v", "", "a", "", "", "", "", "", "", ""⟩], "", ""⟩,
          [], [], false, none⟩).stepStatus.get 1 = .done ∧
    (runStepStatusEffect (some "p")
        ⟨2, ⟨.pending, .pending, .pending, .pending, .pending, .pending⟩, none, some ⟨"c"⟩,
          none, some ⟨[⟨"1", "v", "", "a", "", "", "", "", "", "", ""⟩], "", ""⟩,
          [], [], false, none⟩).stepStatus.get 3 = .done := by
  have h := claimC8_step_advancement
    ⟨2, ⟨.pending, .pending, .pending, .pending, .pending, .pending⟩, none, some ⟨"c"⟩,
      none, some ⟨[⟨"1", "v", "", "a", "", "", "", "", "", "", ""⟩], "", ""⟩,
      [], [], false, none⟩
    "p" ⟨"c"⟩ ⟨[⟨"1", "v", "", "a", "", "", "", "", "", "", ""⟩], "", ""⟩
  exact ⟨h.1 rfl, h.2.1 rfl (by decide)⟩

/-! ## C4: settle-all batch generation -/

theorem jsGet_genFold (l : List ScriptSegment) (outcome : String → GenResult)
    (download : String → String) (m : List (String × String)) (k v : String)
    (hov : outcome k = .ok v)
    (hbase : jsGet m k = some (download v) ∨ ∃ s ∈ l, s.id = k) :
    jsGet
        (l.foldl
          (fun m s =>
            match outcome s.id with
            | .ok kk => jsSet m s.id (download kk)
            | _ => m)
          m) k = some (download v) := by
  induction l generalizing m with
  | nil =>
    rcases hbase with h | ⟨s, hs, _⟩
    · exact h
    · cases hs
  | cons s rest ih =>
    rw [List.foldl_cons]
    apply ih
    by_cases hid : s.id = k
    · left
      rw [hid, hov]
      exact jsGet_jsSet_self m k (download v)
    · rcases hbase with h | ⟨s', hs', hid'⟩
      · left
        cases ho : outcome s.id with
        | ok kk => rw [jsGet_jsSet_ne m s.id (download kk) k (fun hh => hid hh.symm)]; exact h
        | noKey => exact h
        | err msg => exact h
      · rcases List.mem_cons.mp hs' with h' | h'
        · exact absurd (h' ▸ hid') hid
        · exact Or.inr ⟨s', h', hid'⟩

/-- C4: for both batch generators, the batch settles every launched
per-segment call (the settled result list has one entry per eligible
segment), one call's failure does not prevent any other call's success
from being recorded in the generated-images / generated-videos map, and
the step is marked done when at least one call succeeded. -/
theorem claimC4_settle_all (st st' : WState) (script script' : Script)
    (outcome voutcome : String → GenResult) (download : String → String)
    (hsel : st.selectedScript = some script)
    (hne : script.segments.filter (fun s => jsTrimStr s.visual ≠ "") ≠ [])
    (hsel' : st'.selectedScript = some script')
    (hne' : script'.segments.filter
      (fun s => (segmentIdVariants s).any (fun id => truthyStr (jsGet st'.generatedImages id)))
        ≠ []) :
    (runImageGeneration st outcome download).2.length =
        (script.segments.filter (fun s => jsTrimStr s.visual ≠ "")).length ∧
    (∀ s ∈ script.segments.filter (fun s => jsTrimStr s.visual ≠ ""), ∀ k,
      outcome s.id = .ok k →
        jsGet (runImageGeneration st outcome download).1.generatedImages s.id =
          some (download k)) ∧
    ((∃ s ∈ script.segments.filter (fun s => jsTrimStr s.visual ≠ ""), ∃ k,
        outcome s.id = .ok k) →
      (runImageGeneration st outcome download).1.stepStatus.get 4 = .done) ∧
    (runVideoGeneration st' voutcome download).2.length =
        (script'.segments.filter
          (fun s => (segmentIdVariants s).any
            (fun id => truthyStr (jsGet st'.generatedImages id)))).length ∧
    (∀ s ∈ script'.segments.filter
        (fun s => (segmentIdVariants s).any
          (fun id => truthyStr (jsGet st'.generatedImages id))), ∀ k,
      voutcome s.id = .ok k →
        jsGet (runVideoGeneration st' voutcome download).1.generatedVideos s.id =
          some (download k)) ∧
    ((∃ s ∈ script'.segments.filter
        (fun s => (segmentIdVariants s).any
          (fun id => truthyStr (jsGet st'.generatedImages id))), ∃ k,
        voutcome s.id = .ok k) →
      (runVideoGeneration st' voutcome download).1.stepStatus.get 5 = .done) := by
  have himgs : st'.generatedImages ≠ [] := by
    intro hmt
    apply hne'
    rw [List.filter_eq_nil_iff]
    intro s _
    simp [hmt, segmentIdVariants, truthyStr, jsGet]
  have hlen0 : ¬(st'.generatedImages.length = 0) := by
    simpa [List.length_eq_zero] using himgs
  have hemp : (script.segments.filter (fun s => jsTrimStr s.visual ≠ "")).isEmpty = false := by
    simpa [List.isEmpty_iff] using hne
  refine ⟨?_, ?_, ?_, ?_, ?_, ?_⟩
  · simp only [runImageGeneration, hsel, hemp, Bool.false_eq_true, if_false]
    exact List.length_map _ _
  · intro s hs k hk
    simp only [runImageGeneration, hsel, hemp, Bool.false_eq_true, if_false]
    exact jsGet_genFold _ outcome download [] s.id k hk (Or.inr ⟨s, hs, rfl⟩)
  · intro _
    simp only [runImageGeneration, hsel, hemp, Bool.false_eq_true, if_false]
    rfl
  · simp only [runVideoGeneration, hlen0, if_false, hsel']
    exact List.length_map _ _
  · intro s hs k hk
    simp only [runVideoGeneration, hlen0, if_false, hsel']
    exact jsGet_genFold _ voutcome download [] s.id k hk (Or.inr ⟨s, hs, rfl⟩)
  · intro _
    simp only [runVideoGeneration, hlen0, if_false, hsel']
    rfl

/-- C4 witness: an image batch over two eligible segments where segment
2's call throws — both calls settle, segment 1's success is recorded and
step 4 is done; a video batch over one valid segment succeeds and step 5
is done. -/
theorem claimC4_settle_all_witness :
    (runImageGeneration
        ⟨4, ⟨.pending, .pending, .pending, .pending, .pending, .pending⟩, none, none, none,
          some ⟨[⟨"1", "cat", "", "a", "", "", "", "", "", "", ""⟩,
                 ⟨"2", "dog", "", "a", "", "", "", "", "", "", ""⟩], "s", "c"⟩,
          [], [], false, none⟩
        (fun id => if id = "1" then GenResult.ok "k1" else GenResult.err "boom")
        (fun k => "blob-" ++ k)).2.length = 2 ∧
    jsGet (runImageGeneration
        ⟨4, ⟨.pending, .pending, .pending, .pending, .pending, .pending⟩, none, none, none,
          some ⟨[⟨"1", "cat", "", "a", "", "", "", "", "", "", ""⟩,
                 ⟨"2", "dog", "", "a", "", "", "", "", "", "", ""⟩], "s", "c"⟩,
          [], [], false, none⟩
        (fun id => if id = "1" then GenResult.ok "k1" else GenResult.err "boom")
        (fun k => "blob-" ++ k)).1.generatedImages "1" = some "blob-k1" ∧
    (runImageGeneration
        ⟨4, ⟨.pending, .pending, .pending, .pending, .pending, .pending⟩, none, none, none,
          some ⟨[⟨"1", "cat", "", "a", "", "", "", "", "", "", ""⟩,
                 ⟨"2", "dog", "", "a", "", "", "", "", "", "", ""⟩], "s", "c"⟩,
          [], [], false, none⟩
        (fun id => if id = "1" then GenResult.ok "k1" else GenResult.err "boom")
        (fun k => "blob-" ++ k)).1.stepStatus.get 4 = .done ∧
    jsGet (runVideoGeneration
        ⟨5, ⟨.pending, .pending, .pending, .pending, .pending, .pending⟩, none, none, none,
          some ⟨[⟨"1", "cat", "", "a", "", "", "", "", "", "", ""⟩,
                 ⟨"2", "dog", "", "a", "", "", "", "", "", "", ""⟩], "s", "c"⟩,
          [("1", "url1")], [], false, none⟩
        (fun id => if id = "1" then GenResult.ok "kv" else GenResult.err "x")
        (fun k => "blob-" ++ k)).1.generatedVideos "1" = some "blob-kv" ∧
    (runVideoGeneration
        ⟨5, ⟨.pending, .pending, .pending, .pending, .pending, .pending⟩, none, none, none,
          some ⟨[⟨"1", "cat", "", "a", "", "", "", "", "", "", ""⟩,
                 ⟨"2", "dog", "", "a", "", "", "", "", "", "", ""⟩], "s", "c"⟩,
          [("1", "url1")], [], false, none⟩
        (fun id => if id = "1" then GenResult.ok "kv" else GenResult.err "x")
        (fun k => "blob-" ++ k)).1.stepStatus.get 5 = .done := by
  have h := claimC4_settle_all
    ⟨4, ⟨.pending, .pending, .pending, .pending, .pending, .pending⟩, none, none, none,
      some ⟨[⟨"1", "cat", "", "a", "", "", "", "", "", "", ""⟩,
             ⟨"2", "dog", "", "a", "", "", "", "", "", "", ""⟩], "s", "c"⟩,
      [], [], false, none⟩
    ⟨5, ⟨.pending, .pending, .pending, .pending, .pending, .pending⟩, none, none, none,
      some ⟨[⟨"1", "cat", "", "a", "", "", "", "", "", "", ""⟩,
             ⟨"2", "dog", "", "a", "", "", "", "", "", "", ""⟩], "s", "c"⟩,
      [("1", "url1")], [], false, none⟩
    ⟨[⟨"1", "cat", "", "a", "", "", "", "", "", "", ""⟩,
      ⟨"2", "dog", "", "a", "", "", "", "", "", "", ""⟩], "s", "c"⟩
    ⟨[⟨"1", "cat", "", "a", "", "", "", "", "", "", ""⟩,
      ⟨"2", "dog", "", "a", "", "", "", "", "", "", ""⟩], "s", "c"⟩
    (fun id => if id = "1" then GenResult.ok "k1" else GenResult.err "boom")
    (fun id => if id = "1" then GenResult.ok "kv" else GenResult.err "x")
    (fun k => "blob-" ++ k)
    rfl (by decide) rfl (by decide)
  refine ⟨h.1.trans (by decide), ?_, h.2.2.1 ?_, ?_, h.2.2.2.2.2 ?_⟩
  · exact h.2.1 ⟨"1", "cat", "", "a", "", "", "", "", "", "", ""⟩ (by decide) "k1" (by decide)
  · exact ⟨⟨"1", "cat", "", "a", "", "", "", "", "", "", ""⟩, by decide, "k1", by decide⟩
  · exact h.2.2.2.2.1 ⟨"1", "cat", "", "a", "", "", "", "", "", "", ""⟩ (by decide) "kv"
      (by decide)
  · exact ⟨⟨"1", "cat", "", "a", "", "", "", "", "", "", ""⟩, by decide, "kv", by decide⟩

/-! ## Lemmas about the sanitisation chain -/

theorem mem_collapseRunsAux (p : Char → Bool) (b : Bool) (l : List Char) (c : Char)
    (h : c ∈ collapseRunsAux p b l) : c = ' ' ∨ c ∈ l := by
  induction l generalizing b with
  | nil => cases h
  | cons x rest ih =>
    by_cases hx : p x
    · cases b with
      | true =>
        simp only [collapseRunsAux, hx, if_true] at h
        rcases ih true h with h' | h'
        · exact Or.inl h'
        · exact Or.inr (List.mem_cons_of_mem x h')
      | false =>
        simp only [collapseRunsAux, hx, if_true] at h
        rcases List.mem_cons.mp h with h' | h'
        · exact Or.inl h'
        · rcases ih true h' with h'' | h''
          · exact Or.inl h''
          · exact Or.inr (List.mem_cons_of_mem x h'')
    · simp only [collapseRunsAux, hx, if_false] at h
      rcases List.mem_cons.mp h with h' | h'
      · exact Or.inr (h' ▸ List.mem_cons_self x rest)
      · rcases ih false h' with h'' | h''
        · exact Or.inl h''
        · exact Or.inr (List.mem_cons_of_mem x h'')

theorem head_collapseRunsAux_inRun (l : List Char) (c : Char)
    (h : (collapseRunsAux isJsSpace true l).head? = some c) : isJsSpace c = false := by
  induction l with
  | nil => cases h
  | cons x rest ih =>
    by_cases hx : isJsSpace x
    · have hrw : collapseRunsAux isJsSpace true (x :: rest) =
          collapseRunsAux isJsSpace true rest := by
        simp [collapseRunsAux, hx]
      rw [hrw] at h
      exact ih h
    · have hrw : collapseRunsAux isJsSpace true (x :: rest) =
          x :: collapseRunsAux isJsSpace false rest := by
        simp [collapseRunsAux, hx]
      rw [hrw] at h
      simp only [List.head?_cons, Option.some.injEq] at h
      subst h
      simpa using hx

theorem hasDoubleWs_collapseRunsAux (l : List Char) (b : Bool) :
    hasDoubleWs (collapseRunsAux isJsSpace b l) = false := by
  induction l generalizing b with
  | nil => rfl
  | cons x rest ih =>
    by_cases hx : isJsSpace x
    · cases b with
      | true =>
        simp only [collapseRunsAux, hx, if_true]
        exact ih true
      | false =>
        simp only [collapseRunsAux, hx, if_true]
        cases hout : collapseRunsAux isJsSpace true rest with
        | nil => rfl
        | cons d ds =>
          have hd : isJsSpace d = false :=
            head_collapseRunsAux_inRun rest d (by rw [hout]; rfl)
          have ht : hasDoubleWs (d :: ds) = false := hout ▸ ih true
          simp [hasDoubleWs, hd, ht]
    · simp only [collapseRunsAux, hx, if_false]
      cases hout : collapseRunsAux isJsSpace false rest with
      | nil => rfl
      | cons d ds =>
        have ht : hasDoubleWs (d :: ds) = false := hout ▸ ih false
        simp [hasDoubleWs, hx, ht]

theorem hasDoubleWs_tail (c : Char) (l : List Char) (h : hasDoubleWs (c :: l) = false) :
    hasDoubleWs l = false := by
  cases l with
  | nil => rfl
  | cons d ds =>
    simp only [hasDoubleWs, Bool.or_eq_false_iff] at h
    exact h.2

theorem hasDoubleWs_dropWhile (p : Char → Bool) (l : List Char)
    (h : hasDoubleWs l = false) : hasDoubleWs (l.dropWhile p) = false := by
  induction l with
  | nil => rfl
  | cons c rest ih =>
    by_cases hc : p c
    · rw [List.dropWhile_cons_of_pos hc]
      exact ih (hasDoubleWs_tail c rest h)
    · rw [List.dropWhile_cons_of_neg hc]
      exact h

theorem head_dropTrailingWs (l : List Char) (d : Char) (ds : List Char)
    (h : dropTrailingWs l = d :: ds) : l.head? = some d := by
  cases l with
  | nil => cases h
  | cons c rest =>
    unfold dropTrailingWs at h
    cases hr : dropTrailingWs rest with
    | nil =>
      rw [hr] at h
      by_cases hc : isJsSpace c
      · rw [if_pos hc] at h; cases h
      · rw [if_neg hc] at h; cases h; rfl
    | cons e es =>
      rw [hr] at h
      cases h
      rfl

theorem hasDoubleWs_dropTrailingWs (l : List Char) (h : hasDoubleWs l = false) :
    hasDoubleWs (dropTrailingWs l) = false := by
  induction l with
  | nil => rfl
  | cons c rest ih =>
    unfold dropTrailingWs
    cases hout : dropTrailingWs rest with
    | nil =>
      by_cases hc : isJsSpace c
      · rw [if_pos hc]; rfl
      · rw [if_neg hc]; rfl
    | cons d ds =>
      have hhead : rest.head? = some d := head_dropTrailingWs rest d ds hout
      have ht : hasDoubleWs (d :: ds) = false := hout ▸ ih (hasDoubleWs_tail c rest h)
      match rest, hhead, h with
      | [], hh, _ => simp at hh
      | e :: rs, hh, h =>
        have hde : e = d := by simpa using hh
        subst hde
        simp only [hasDoubleWs, Bool.or_eq_false_iff] at h
        simp [hasDoubleWs, h.1, ht]

theorem hasDoubleWs_take (l : List Char) (n : Nat) (h : hasDoubleWs l = false) :
    hasDoubleWs (l.take n) = false := by
  induction l generalizing n with
  | nil =>
    rw [List.take_nil]
    exact h
  | cons c rest ih =>
    cases n with
    | zero => rfl
    | succ n =>
      rw [List.take_succ_cons]
      cases htr : rest.take n with
      | nil => rfl
      | cons d ds =>
        have hhead : rest.head? = some d := by
          match rest, htr with
          | [], ht => simp at ht
          | e :: rs, ht =>
            cases n with
            | zero => cases ht
            | succ n' =>
              rw [List.take_succ_cons] at ht
              cases ht
              rfl
        have ht2 : hasDoubleWs (d :: ds) = false := htr ▸ ih n (hasDoubleWs_tail c rest h)
        match rest, hhead, h with
        | [], hh, _ => simp at hh
        | e :: rs, hh, h =>
          have hde : e = d := by simpa using hh
          subst hde
          simp only [hasDoubleWs, Bool.or_eq_false_iff] at h
          simp [hasDoubleWs, h.1, ht2]

theorem mem_dropTrailingWs (l : List Char) (c : Char) (h : c ∈ dropTrailingWs l) : c ∈ l := by
  induction l with
  | nil => cases h
  | cons x rest ih =>
    unfold dropTrailingWs at h
    cases hout : dropTrailingWs rest with
    | nil =>
      rw [hout] at h
      by_cases hx : isJsSpace x
      · rw [if_pos hx] at h; cases h
      · rw [if_neg hx] at h
        rcases List.mem_singleton.mp h with h'
        exact h' ▸ List.mem_cons_self x rest
    | cons d ds =>
      rw [hout] at h
      rcases List.mem_cons.mp h with h' | h'
      · exact h' ▸ List.mem_cons_self x rest
      · exact List.mem_cons_of_mem x (ih (hout ▸ h'))

theorem head_dropWhile_false (p : Char → Bool) (l : List Char) (c : Char)
    (h : (l.dropWhile p).head? = some c) : p c = false := by
  induction l with
  | nil => cases h
  | cons x rest ih =>
    by_cases hx : p x
    · rw [List.dropWhile_cons_of_pos hx] at h
      exact ih h
    · rw [List.dropWhile_cons_of_neg hx] at h
      simp only [List.head?_cons, Option.some.injEq] at h
      subst h
      simpa using hx

theorem getLast_dropTrailingWs (l : List Char) (d : Char)
    (h : (dropTrailingWs l).getLast? = some d) : isJsSpace d = false := by
  induction l with
  | nil => cases h
  | cons c rest ih =>
    unfold dropTrailingWs at h
    cases hout : dropTrailingWs rest with
    | nil =>
      rw [hout] at h
      by_cases hc : isJsSpace c
      · rw [if_pos hc] at h; cases h
      · rw [if_neg hc] at h
        simp only [List.getLast?_singleton, Option.some.injEq] at h
        subst h
        simpa using hc
    | cons e es =>
      rw [hout] at h
      rw [List.getLast?_cons_cons] at h
      exact ih (hout ▸ h)

theorem head?_take_pos (l : List Char) (n : Nat) (hn : n ≠ 0) :
    (l.take n).head? = l.head? := by
  cases l with
  | nil => simp
  | cons c rest =>
    cases n with
    | zero => exact absurd rfl hn
    | succ n => rw [List.take_succ_cons]; rfl

theorem head?_dropTrailingWs (l : List Char) (c : Char)
    (h : (dropTrailingWs l).head? = some c) : l.head? = some c := by
  cases hout : dropTrailingWs l with
  | nil => rw [hout] at h; cases h
  | cons d ds =>
    rw [hout] at h
    simp only [List.head?_cons, Option.some.injEq] at h
    subst h
    exact head_dropTrailingWs l _ _ hout

theorem mem_sanitisePromptChars (l : List Char) (c : Char)
    (h : c ∈ sanitisePromptChars l) : isPrintableAscii c = true := by
  unfold sanitisePromptChars jsTrimChars at h
  have h₁ := mem_dropTrailingWs _ c h
  have h₂ := (List.dropWhile_sublist isJsSpace).subset h₁
  rcases mem_collapseRunsAux isJsSpace false _ c h₂ with h₃ | h₃
  · subst h₃; decide
  · rcases mem_collapseRunsAux (fun ch => ch = '\n') false _ c h₃ with h₄ | h₄
    · subst h₄; decide
    · exact (List.mem_filter.mp h₄).2

/-! ## C9: prompt sanitization in the facade -/

set_option maxRecDepth 100000 in
/-- C9 counterexample: `chatApi.generateVideo` posts the animation
prompt verbatim — the prompt `"a  b"` reaches the payload with its run
of two spaces intact, so the sanitisation is not applied to every
prompt the facade sends; moreover truncation at 800 characters happens
after trimming, so a sanitised image prompt of 801 characters whose
800th character is a space is sent with a trailing space. -/
theorem claimC9_prompt_sanitization_cex :
    (generateVideoPayload "a  b" "" "k" "u" "p" "m").animation_prompt = "a  b" ∧
    hasDoubleWs ("a  b" : String).toList = true ∧
    (generateImagePayload (String.mk (List.replicate 799 'a' ++ [' ', 'b'])) "" "u" "p"
        "m").visual_prompt.toList.getLast? = some ' ' ∧
    isJsSpace ' ' = true := by
  refine ⟨rfl, by decide, by decide, by decide⟩

/-- C9 (amended): the prompt `chatApi.generateImage` posts contains only
printable ASCII (hence no newline), has no run of two or more
consecutive whitespace characters, no leading whitespace, length at most
800 (strictly below the backend's 950-character limit), and no trailing
whitespace whenever the sanitised prompt fits within 800 characters
(truncation of a longer prompt can leave a single trailing space);
`chatApi.generateVideo` sends its animation prompt unmodified, with no
sanitisation at all. -/
theorem claimC9_prompt_sanitization (s a style key uuid pid model : String) :
    (generateImagePayload s style uuid pid model).visual_prompt.length ≤ 800 ∧
    800 < 950 ∧
    (∀ c ∈ (generateImagePayload s style uuid pid model).visual_prompt.toList,
      isPrintableAscii c = true) ∧
    '\n' ∉ (generateImagePayload s style uuid pid model).visual_prompt.toList ∧
    hasDoubleWs (generateImagePayload s style uuid pid model).visual_prompt.toList = false ∧
    (∀ c, (generateImagePayload s style uuid pid model).visual_prompt.toList.head? = some c →
      isJsSpace c = false) ∧
    ((sanitisePromptChars s.toList).length ≤ 800 →
      ∀ c, (generateImagePayload s style uuid pid model).visual_prompt.toList.getLast? =
          some c → isJsSpace c = false) ∧
    (generateVideoPayload a style key uuid pid model).animation_prompt = a := by
  refine ⟨?_, by norm_num, ?_, ?_, ?_, ?_, ?_, rfl⟩
  · show ((sanitisePromptChars s.toList).take MAX_PROMPT_LENGTH).length ≤ 800
    exact le_trans (List.length_take_le _ _) (le_refl 800)
  · intro c hc
    exact mem_sanitisePromptChars s.toList c (List.take_subset _ _ hc)
  · intro hc
    have := mem_sanitisePromptChars s.toList '\n' (List.take_subset _ _ hc)
    simp [isPrintableAscii] at this
  · apply hasDoubleWs_take
    unfold sanitisePromptChars jsTrimChars
    exact hasDoubleWs_dropTrailingWs _
      (hasDoubleWs_dropWhile _ _ (hasDoubleWs_collapseRunsAux _ false))
  · intro c hc
    rw [show (generateImagePayload s style uuid pid model).visual_prompt.toList =
        (sanitisePromptChars s.toList).take MAX_PROMPT_LENGTH from rfl] at hc
    rw [head?_take_pos _ _ (by decide)] at hc
    unfold sanitisePromptChars jsTrimChars at hc
    exact head_dropWhile_false isJsSpace _ c (head?_dropTrailingWs _ c hc)
  · intro hlen c hc
    rw [show (generateImagePayload s style uuid pid model).visual_prompt.toList =
        (sanitisePromptChars s.toList).take MAX_PROMPT_LENGTH from rfl] at hc
    unfold MAX_PROMPT_LENGTH at hc
    rw [List.take_of_length_le hlen] at hc
    unfold sanitisePromptChars jsTrimChars at hc
    exact getLast_dropTrailingWs _ c hc

/-- C9 witness: the amended theorem at the image prompt `"  a  b  "`
(sanitised to `"a b"`) and the video prompt `"x"`. -/
theorem claimC9_prompt_sanitization_witness :
    (generateImagePayload "  a  b  " "" "u" "p" "m").visual_prompt.length ≤ 800 ∧
    hasDoubleWs (generateImagePayload "  a  b  " "" "u" "p" "m").visual_prompt.toList
      = false ∧
    isJsSpace 'b' = false ∧
    (generateVideoPayload "x" "" "k" "u" "p" "m").animation_prompt = "x" := by
  have h := claimC9_prompt_sanitization "  a  b  " "x" "" "k" "u" "p" "m"
  exact ⟨h.1, h.2.2.2.2.1, h.2.2.2.2.2.2.1 (by decide) 'b' (by decide), h.2.2.2.2.2.2.2⟩

/-! ## Lemmas about the graph projection -/

theorem joinPairs_cons {A B : Type} (p : List A × List B) (rest : List (List A × List B)) :
    joinPairs (p :: rest) = (p.1 ++ (joinPairs rest).1, p.2 ++ (joinPairs rest).2) := rfl

theorem mem_joinPairs_fst {A B : Type} (l : List (List A × List B)) (a : A) :
    a ∈ (joinPairs l).1 ↔ ∃ p ∈ l, a ∈ p.1 := by
  induction l with
  | nil => simp [joinPairs]
  | cons p rest ih =>
    rw [joinPairs_cons]
    constructor
    · intro h
      rcases List.mem_append.mp h with h | h
      · exact ⟨p, List.mem_cons_self p rest, h⟩
      · obtain ⟨q, hq, ha⟩ := ih.mp h
        exact ⟨q, List.mem_cons_of_mem p hq, ha⟩
    · rintro ⟨q, hq, ha⟩
      rcases List.mem_cons.mp hq with h | h
      · exact List.mem_append.mpr (Or.inl (h ▸ ha))
      · exact List.mem_append.mpr (Or.inr (ih.mpr ⟨q, h, ha⟩))

theorem mem_joinPairs_snd {A B : Type} (l : List (List A × List B)) (b : B) :
    b ∈ (joinPairs l).2 ↔ ∃ p ∈ l, b ∈ p.2 := by
  induction l with
  | nil => simp [joinPairs]
  | cons p rest ih =>
    rw [joinPairs_cons]
    constructor
    · intro h
      rcases List.mem_append.mp h with h | h
      · exact ⟨p, List.mem_cons_self p rest, h⟩
      · obtain ⟨q, hq, hb⟩ := ih.mp h
        exact ⟨q, List.mem_cons_of_mem p hq, hb⟩
    · rintro ⟨q, hq, hb⟩
      rcases List.mem_cons.mp hq with h | h
      · exact List.mem_append.mpr (Or.inl (h ▸ hb))
      · exact List.mem_append.mpr (Or.inr (ih.mpr ⟨q, h, hb⟩))

theorem videoCellEdge_target (fd : FlowData) (segment : FlowSegment) (vX iY : Int)
    (image : SegImage) :
    (videoCellEdge fd segment image).target = (videoCellNode fd segment vX iY image).nid := by
  unfold videoCellEdge videoCellNode
  split <;> rfl

theorem videoCellEdge_source (fd : FlowData) (segment : FlowSegment) (image : SegImage) :
    (videoCellEdge fd segment image).source = "image-" ++ segment.id ++ "-" ++ image.id := by
  unfold videoCellEdge
  split <;> rfl

theorem videoCellNode_isVideo (fd : FlowData) (segment : FlowSegment) (vX iY : Int)
    (image : SegImage) :
    (videoCellNode fd segment vX iY image).isVideoOrAddVideo = true := by
  unfold videoCellNode
  split <;> rfl

theorem imageNode_not_videoish (a : String) (b c : Int) (d e f : String) (g : Bool) :
    (FlowNode.imageNode a b c d e f g).isVideoOrAddVideo = false := rfl

theorem imageRow_edges_closed (fd : FlowData) (segment : FlowSegment) (y : Int)
    (i : Nat) (image : SegImage) (e : FlowEdge)
    (he : e ∈ (imageRowElements fd segment y i image).2) :
    (e.source = "add-image-" ++ segment.id ∨
      ∃ n ∈ (imageRowElements fd segment y i image).1, n.nid = e.source) ∧
    (∃ n ∈ (imageRowElements fd segment y i image).1, n.nid = e.target) := by
  rcases List.mem_cons.mp he with h | h
  · subst h
    refine ⟨Or.inl rfl, ?_⟩
    exact ⟨FlowNode.imageNode ("image-" ++ segment.id ++ "-" ++ image.id)
        (startX + nodeSpacing + nodeSpacing) (y + (i : Int) * rowSpacing)
        segment.id image.id image.url image.isPrimary,
      List.mem_cons_self _ _, rfl⟩
  · rcases List.mem_singleton.mp h with rfl
    refine ⟨Or.inr ?_, ?_⟩
    · exact ⟨FlowNode.imageNode ("image-" ++ segment.id ++ "-" ++ image.id)
          (startX + nodeSpacing + nodeSpacing) (y + (i : Int) * rowSpacing)
          segment.id image.id image.url image.isPrimary,
        List.mem_cons_self _ _, (videoCellEdge_source fd segment image).symm⟩
    · exact ⟨videoCellNode fd segment (startX + nodeSpacing + nodeSpacing + nodeSpacing)
          (y + (i : Int) * rowSpacing) image,
        List.mem_cons_of_mem _ (List.mem_cons_self _ _),
        (videoCellEdge_target fd segment _ _ image).symm⟩

theorem segmentRows_closed (fd : FlowData) (segment : FlowSegment) (y : Int) (e : FlowEdge)
    (he : e ∈ (segmentRows fd segment y).2) :
    (e.source = "add-image-" ++ segment.id ∨
      ∃ n ∈ (segmentRows fd segment y).1, n.nid = e.source) ∧
    (∃ n ∈ (segmentRows fd segment y).1, n.nid = e.target) := by
  unfold segmentRows at he ⊢
  by_cases himg : truthyStr (jsGet fd.images segment.id) = true
  · rw [if_pos himg] at he ⊢
    cases hdet : jsGet fd.imageDetails segment.id with
    | none =>
      rw [hdet] at he
      cases he
    | some detail =>
      rw [hdet] at he
      obtain ⟨q, hq, heq⟩ := (mem_joinPairs_snd _ e).mp he
      obtain ⟨p, hp, hqe⟩ := List.mem_map.mp hq
      subst hqe
      have h := imageRow_edges_closed fd segment y p.1 p.2 e heq
      refine ⟨?_, ?_⟩
      · rcases h.1 with h₁ | ⟨n, hn, hns⟩
        · exact Or.inl h₁
        · exact Or.inr ⟨n, (mem_joinPairs_fst _ n).mpr ⟨_, hq, hn⟩, hns⟩
      · obtain ⟨n, hn, hnt⟩ := h.2
        exact ⟨n, (mem_joinPairs_fst _ n).mpr ⟨_, hq, hn⟩, hnt⟩
  · rw [if_neg himg] at he
    cases he

theorem segment_edges_closed (fd : FlowData) (i : Nat) (segment : FlowSegment) (e : FlowEdge)
    (he : e ∈ (segmentElements fd i segment).2) :
    (∃ n ∈ (segmentElements fd i segment).1, n.nid = e.source) ∧
    (∃ n ∈ (segmentElements fd i segment).1, n.nid = e.target) := by
  simp only [segmentElements] at he ⊢
  rcases List.mem_cons.mp he with h | h
  · subst h
    exact ⟨⟨_, List.mem_cons_self _ _, rfl⟩,
      ⟨_, List.mem_cons_of_mem _ (List.mem_cons_self _ _), rfl⟩⟩
  · have h' := segmentRows_closed fd segment _ e h
    refine ⟨?_, ?_⟩
    · rcases h'.1 with h₁ | ⟨n, hn, hns⟩
      · refine ⟨FlowNode.addImageNode ("add-image-" ++ segment.id) (startX + nodeSpacing)
            (startY + (i : Int) * segmentSpacing) segment.id
            (truthyStr (jsGet fd.images segment.id)),
          List.mem_cons_of_mem _ (List.mem_cons_self _ _), ?_⟩
        rw [h₁]
        rfl
      · exact ⟨n,
          List.mem_cons_of_mem _ (List.mem_cons_of_mem _ hn), hns⟩
    · obtain ⟨n, hn, hnt⟩ := h'.2
      exact ⟨n, List.mem_cons_of_mem _ (List.mem_cons_of_mem _ hn), hnt⟩

/-! ## C10: graph well-formedness -/

/-- C10: for every input, every edge produced by `createFlowElements`
has its source id and target id among the ids of produced nodes, and
each image row contains exactly one video-column node — a video node or
an add-video placeholder, never both — with the row's image connected
rightward to exactly that node. -/
theorem claimC10_graph_wellformed (fd : FlowData) :
    (∀ e ∈ (createFlowElements fd).2,
      (∃ n ∈ (createFlowElements fd).1, n.nid = e.source) ∧
      (∃ n ∈ (createFlowElements fd).1, n.nid = e.target)) ∧
    (∀ (segment : FlowSegment) (y : Int) (i : Nat) (image : SegImage), ∃ t : FlowNode,
      (imageRowElements fd segment y i image).1.filter
          (fun n => n.isVideoOrAddVideo) = [t] ∧
      t.isVideoOrAddVideo = true ∧
      ∃ e ∈ (imageRowElements fd segment y i image).2,
        e.source = "image-" ++ segment.id ++ "-" ++ image.id ∧ e.target = t.nid) := by
  constructor
  · intro e he
    unfold createFlowElements at he ⊢
    by_cases hlen : fd.segments.length > 0
    · rw [if_pos hlen] at he ⊢
      obtain ⟨q, hq, heq⟩ := (mem_joinPairs_snd _ e).mp he
      obtain ⟨p, hp, hqe⟩ := List.mem_map.mp hq
      subst hqe
      have h := segment_edges_closed fd p.1 p.2 e heq
      refine ⟨?_, ?_⟩
      · obtain ⟨n, hn, hns⟩ := h.1
        exact ⟨n, (mem_joinPairs_fst _ n).mpr ⟨_, hq, hn⟩, hns⟩
      · obtain ⟨n, hn, hnt⟩ := h.2
        exact ⟨n, (mem_joinPairs_fst _ n).mpr ⟨_, hq, hn⟩, hnt⟩
    · rw [if_neg hlen] at he
      cases he
  · intro segment y i image
    refine ⟨videoCellNode fd segment (startX + nodeSpacing + nodeSpacing + nodeSpacing)
        (y + (i : Int) * rowSpacing) image, ?_, videoCellNode_isVideo fd segment _ _ image,
      videoCellEdge fd segment image,
      List.mem_cons_of_mem _ (List.mem_cons_self _ _),
      videoCellEdge_source fd segment image,
      videoCellEdge_target fd segment _ _ image⟩
    simp [imageRowElements, List.filter_cons, imageNode_not_videoish, videoCellNode_isVideo]

/-- C10 witness: the theorem at a flow with one segment carrying one
image and no video (the add-video branch), probing the segment-to-anchor
edge. -/
theorem claimC10_graph_wellformed_witness :
    ((∃ n ∈ (createFlowElements ⟨[⟨"1", "v", "n", "a"⟩], [("1", "img.png")], [],
          [("1", ⟨"i1", "", "", "k", [⟨"i1", "u", "", "", "k", "seg-1", true⟩]⟩)], []⟩).1,
        n.nid = "segment-1") ∧
      (∃ n ∈ (createFlowElements ⟨[⟨"1", "v", "n", "a"⟩], [("1", "img.png")], [],
          [("1", ⟨"i1", "", "", "k", [⟨"i1", "u", "", "", "k", "seg-1", true⟩]⟩)], []⟩).1,
        n.nid = "add-image-1")) ∧
    (∃ t : FlowNode,
      (imageRowElements ⟨[⟨"1", "v", "n", "a"⟩], [("1", "img.png")], [],
          [("1", ⟨"i1", "", "", "k", [⟨"i1", "u", "", "", "k", "seg-1", true⟩]⟩)], []⟩
        ⟨"1", "v", "n", "a"⟩ 50 0 ⟨"i1", "u", "", "", "k", "seg-1", true⟩).1.filter
          (fun n => n.isVideoOrAddVideo) = [t] ∧
      t.isVideoOrAddVideo = true ∧
      ∃ e ∈ (imageRowElements ⟨[⟨"1", "v", "n", "a"⟩], [("1", "img.png")], [],
          [("1", ⟨"i1", "", "", "k", [⟨"i1", "u", "", "", "k", "seg-1", true⟩]⟩)], []⟩
        ⟨"1", "v", "n", "a"⟩ 50 0 ⟨"i1", "u", "", "", "k", "seg-1", true⟩).2,
        e.source = "image-" ++ "1" ++ "-" ++ "i1" ∧ e.target = t.nid) := by
  have h := claimC10_graph_wellformed ⟨[⟨"1", "v", "n", "a"⟩], [("1", "img.png")], [],
    [("1", ⟨"i1", "", "", "k", [⟨"i1", "u", "", "", "k", "seg-1", true⟩]⟩)], []⟩
  refine ⟨?_, h.2 ⟨"1", "v", "n", "a"⟩ 50 0 ⟨"i1", "u", "", "", "k", "seg-1", true⟩⟩
  have he := h.1 ⟨"segment-1-to-add-image-1", "segment-1", "add-image-1"⟩ (by decide)
  exact he

end FlowSpec
